import Mathlib

/-!
# Field validation of stumpless (`src/validate.c`)

A shallow embedding of the string validators of `src/validate.c` and the
properties of the specification that are about them.

Modelling choices.

* Memory.  A `const char *` argument is modelled by the bytes of the object it
  points into, from the pointer onwards: a `List Byte`.  Reading past the end
  of that object is undefined behaviour in C; the embedding returns `none`
  there.  A NUL-terminated string with content `s` is a buffer of the form
  `s ++ 0 :: rest` where no byte of `s` is zero; its byte length is `s.length`.
* `char`.  Whether plain `char` is signed is implementation-defined, so the
  value of `str[i]` after integer promotion is computed by `char_value` from a
  flag of the build configuration.
* Output parameter and errors.  A validator returns, besides its boolean
  result, the value it leaves in `*length` and the calls it made to the
  error-raising helpers, in order.
* Error channel.  For the properties that speak of the state of the error
  channel, the same functions are embedded a second time in state-passing
  style (`run_validate_...`): they take the channel a call starts with and
  return the channel it leaves.
* Constants of headers that are not part of the sources at hand (the maximum
  lengths and the localised messages) are fields of `Config`.
* `size_t`.  Lengths and indices are natural numbers: the length of a string
  held in memory fits `size_t`, and the only arithmetic on these values is the
  increment of a loop counter that stays below the length.
-/

namespace Stumpless

/-- One byte of memory. -/
abbrev Byte := Fin 256

/-- Compile-time configuration the validators depend on: the signedness of
plain `char`, the six maximum lengths of `stumpless/entry.h`, and the
localised strings of `private/config/locale/wrapper.h`. -/
structure Config where
  char_is_signed : Bool
  STUMPLESS_MAX_APP_NAME_LENGTH : Nat
  STUMPLESS_MAX_ELEMENT_NAME_LENGTH : Nat
  STUMPLESS_MAX_HOSTNAME_LENGTH : Nat
  STUMPLESS_MAX_MSGID_LENGTH : Nat
  STUMPLESS_MAX_PARAM_NAME_LENGTH : Nat
  STUMPLESS_MAX_PROCID_LENGTH : Nat
  L10N_STRING_TOO_LONG_ERROR_MESSAGE : String
  L10N_STRING_LENGTH_ERROR_CODE_TYPE : String
  L10N_FORMAT_ERROR_MESSAGE : String → String

/-- Value of the `char` holding byte `b` after promotion to `int`: the byte
itself where `char` is unsigned, its two's-complement reading where `char` is
signed. -/
def char_value (cfg : Config) (b : Byte) : Int :=
  if cfg.char_is_signed = true ∧ 128 ≤ b.val then (b.val : Int) - 256 else (b.val : Int)

/-- Modelled from the spec: the error-raising helpers of `private/error.h`
(`raise_argument_too_big`, `raise_invalid_encoding`) are not part of the
sources at hand.  A call to one of them is recorded with the arguments it is
given: an "argument too large" error carrying a message, the offending size and
an error code category, or an "invalid encoding" error carrying a message. -/
inductive Raise where
  | argument_too_big (message : String) (arg_size : Nat) (code_type : String)
  | invalid_encoding (message : String)
deriving DecidableEq, Repr

/-- Outcome of a call to a length check or field validator: the returned
boolean, the value left in `*length`, and the errors raised, in order. -/
structure Outcome where
  ret : Bool
  length : Nat
  raised : List Raise
deriving DecidableEq, Repr

/-- Outcome of a call to a character scan: the returned boolean, the value of
the loop counter `i` when the function returns, and the errors raised, in
order. -/
structure ScanOutcome where
  ret : Bool
  i : Nat
  raised : List Raise
deriving DecidableEq, Repr

/-- The C library function: number of bytes before the first NUL.  Running off
the end of the object without meeting a NUL is undefined: `none`. -/
def strlen : List Byte → Option Nat
  | [] => none
  | c :: cs => if c = 0 then some 0 else (strlen cs).map (fun n => n + 1)

/-- Embedding of `validate_string_length` (validate.c:39-51). -/
def validate_string_length (cfg : Config) (str : List Byte) (max_length : Nat) :
    Option Outcome :=
  match strlen str with
  | none => none
  | some length =>
    if length > max_length then
      some ⟨false, length,
        [Raise.argument_too_big cfg.L10N_STRING_TOO_LONG_ERROR_MESSAGE length
          cfg.L10N_STRING_LENGTH_ERROR_CODE_TYPE]⟩
    else
      some ⟨true, length, []⟩

/-- The loop of `validate_printable_ascii` (validate.c:140-147) with `k`
iterations left before `i` reaches `length`. -/
def validate_printable_ascii_loop (cfg : Config) (str : List Byte) :
    Nat → Nat → Option ScanOutcome
  | 0, i => some ⟨true, i, []⟩
  | k + 1, i =>
    match str[i]? with
    | none => none
    | some c =>
      if char_value cfg c < 33 ∨ char_value cfg c > 126 then
        some ⟨false, i, [Raise.invalid_encoding (cfg.L10N_FORMAT_ERROR_MESSAGE "printable ascii")]⟩
      else
        validate_printable_ascii_loop cfg str k (i + 1)

/-- Embedding of `validate_printable_ascii` (validate.c:136-148). -/
def validate_printable_ascii (cfg : Config) (str : List Byte) (length : Nat) :
    Option ScanOutcome :=
  validate_printable_ascii_loop cfg str length 0

/-- The loop of `validate_name_chars` (validate.c:109-120) with `k` iterations
left before `i` reaches `length`.  The character constants of the source are
written by their ASCII codes: 61 is the equals sign, 93 the closing bracket,
34 the double quote. -/
def validate_name_chars_loop (cfg : Config) (str : List Byte) :
    Nat → Nat → Option ScanOutcome
  | 0, i => some ⟨true, i, []⟩
  | k + 1, i =>
    match str[i]? with
    | none => none
    | some c =>
      if char_value cfg c < 33 ∨
         char_value cfg c > 126 ∨
         char_value cfg c = 61 ∨
         char_value cfg c = 93 ∨
         char_value cfg c = 34 then
        some ⟨false, i, [Raise.invalid_encoding (cfg.L10N_FORMAT_ERROR_MESSAGE "identifier")]⟩
      else
        validate_name_chars_loop cfg str k (i + 1)

/-- Embedding of `validate_name_chars` (validate.c:105-121). -/
def validate_name_chars (cfg : Config) (str : List Byte) (length : Nat) :
    Option ScanOutcome :=
  validate_name_chars_loop cfg str length 0

/-- The composition `length_check( str, length ) && scan( str, *length )` that
every field validator is: the scan runs only when the length check returned
true, on the length it wrote. -/
def and_then_scan (check : Option Outcome) (scan : Nat → Option ScanOutcome) :
    Option Outcome :=
  match check with
  | none => none
  | some r =>
    if r.ret = true then
      match scan r.length with
      | none => none
      | some s => some ⟨s.ret, r.length, r.raised ++ s.raised⟩
    else
      some ⟨false, r.length, r.raised⟩

/-- Embedding of `validate_app_name_length` (validate.c:59-64). -/
def validate_app_name_length (cfg : Config) (app_name : List Byte) : Option Outcome :=
  validate_string_length cfg app_name cfg.STUMPLESS_MAX_APP_NAME_LENGTH

/-- Embedding of `validate_app_name` (validate.c:53-57). -/
def validate_app_name (cfg : Config) (str : List Byte) : Option Outcome :=
  and_then_scan (validate_app_name_length cfg str) (validate_printable_ascii cfg str)

/-- Embedding of `validate_element_name_length` (validate.c:72-77). -/
def validate_element_name_length (cfg : Config) (name : List Byte) : Option Outcome :=
  validate_string_length cfg name cfg.STUMPLESS_MAX_ELEMENT_NAME_LENGTH

/-- Embedding of `validate_element_name` (validate.c:66-70). -/
def validate_element_name (cfg : Config) (str : List Byte) : Option Outcome :=
  and_then_scan (validate_element_name_length cfg str) (validate_name_chars cfg str)

/-- Embedding of `validate_hostname_length` (validate.c:85-90). -/
def validate_hostname_length (cfg : Config) (hostname : List Byte) : Option Outcome :=
  validate_string_length cfg hostname cfg.STUMPLESS_MAX_HOSTNAME_LENGTH

/-- Embedding of `validate_hostname` (validate.c:79-83). -/
def validate_hostname (cfg : Config) (hostname : List Byte) : Option Outcome :=
  and_then_scan (validate_hostname_length cfg hostname) (validate_printable_ascii cfg hostname)

/-- Embedding of `validate_msgid_length` (validate.c:98-103). -/
def validate_msgid_length (cfg : Config) (msgid : List Byte) : Option Outcome :=
  validate_string_length cfg msgid cfg.STUMPLESS_MAX_MSGID_LENGTH

/-- Embedding of `validate_msgid` (validate.c:92-96). -/
def validate_msgid (cfg : Config) (str : List Byte) : Option Outcome :=
  and_then_scan (validate_msgid_length cfg str) (validate_printable_ascii cfg str)

/-- Embedding of `validate_param_name_length` (validate.c:129-134). -/
def validate_param_name_length (cfg : Config) (name : List Byte) : Option Outcome :=
  validate_string_length cfg name cfg.STUMPLESS_MAX_PARAM_NAME_LENGTH

/-- Embedding of `validate_param_name` (validate.c:123-127). -/
def validate_param_name (cfg : Config) (str : List Byte) : Option Outcome :=
  and_then_scan (validate_param_name_length cfg str) (validate_name_chars cfg str)

/-- Embedding of `validate_procid_length` (validate.c:156-161). -/
def validate_procid_length (cfg : Config) (procid : List Byte) : Option Outcome :=
  validate_string_length cfg procid cfg.STUMPLESS_MAX_PROCID_LENGTH

/-- Embedding of `validate_procid` (validate.c:150-154). -/
def validate_procid (cfg : Config) (procid : List Byte) : Option Outcome :=
  and_then_scan (validate_procid_length cfg procid) (validate_printable_ascii cfg procid)

/-- The six kinds of field that have a validator. -/
inductive FieldKind where
  | app_name
  | hostname
  | msgid
  | procid
  | element_name
  | param_name
deriving DecidableEq, Repr

/-- The maximum length `max(K)` each validator passes to the length check. -/
def FieldKind.max_length (cfg : Config) : FieldKind → Nat
  | .app_name => cfg.STUMPLESS_MAX_APP_NAME_LENGTH
  | .hostname => cfg.STUMPLESS_MAX_HOSTNAME_LENGTH
  | .msgid => cfg.STUMPLESS_MAX_MSGID_LENGTH
  | .procid => cfg.STUMPLESS_MAX_PROCID_LENGTH
  | .element_name => cfg.STUMPLESS_MAX_ELEMENT_NAME_LENGTH
  | .param_name => cfg.STUMPLESS_MAX_PARAM_NAME_LENGTH

/-- The length-only validator `validate_K_length` of a field kind. -/
def FieldKind.validate_length (cfg : Config) : FieldKind → List Byte → Option Outcome
  | .app_name => validate_app_name_length cfg
  | .hostname => validate_hostname_length cfg
  | .msgid => validate_msgid_length cfg
  | .procid => validate_procid_length cfg
  | .element_name => validate_element_name_length cfg
  | .param_name => validate_param_name_length cfg

/-- The validator `validate_K` of a field kind. -/
def FieldKind.validate (cfg : Config) : FieldKind → List Byte → Option Outcome
  | .app_name => validate_app_name cfg
  | .hostname => validate_hostname cfg
  | .msgid => validate_msgid cfg
  | .procid => validate_procid cfg
  | .element_name => validate_element_name cfg
  | .param_name => validate_param_name cfg

/-- The two character-set policies of the specification. -/
inductive Policy where
  | printable_ascii
  | restricted_name
deriving DecidableEq, Repr

/-- The policy table of the specification (section 4.3). -/
def FieldKind.policy : FieldKind → Policy
  | .app_name => .printable_ascii
  | .hostname => .printable_ascii
  | .msgid => .printable_ascii
  | .procid => .printable_ascii
  | .element_name => .restricted_name
  | .param_name => .restricted_name

/-- The bytes a policy admits, in the words of the specification:
PrintableAscii admits the byte values 33 to 126, RestrictedName the same range
without the equals sign (61), the closing bracket (93) and the double quote
(34). -/
def Policy.admits : Policy → Byte → Prop
  | .printable_ascii, b => 33 ≤ b.val ∧ b.val ≤ 126
  | .restricted_name, b => (33 ≤ b.val ∧ b.val ≤ 126) ∧ b.val ≠ 61 ∧ b.val ≠ 93 ∧ b.val ≠ 34

instance (p : Policy) (b : Byte) : Decidable (p.admits b) := by
  cases p <;> unfold Policy.admits <;> infer_instance

/-- The role name with which a policy tags its "invalid encoding" error. -/
def Policy.role : Policy → String
  | .printable_ascii => "printable ascii"
  | .restricted_name => "identifier"

/-- The "argument too large" error the length check raises for a string of
`length` bytes. -/
def length_exceeded (cfg : Config) (length : Nat) : Raise :=
  Raise.argument_too_big cfg.L10N_STRING_TOO_LONG_ERROR_MESSAGE length
    cfg.L10N_STRING_LENGTH_ERROR_CODE_TYPE

/-- The "invalid encoding" error tagged with a role name. -/
def invalid_encoding_of (cfg : Config) (role : String) : Raise :=
  Raise.invalid_encoding (cfg.L10N_FORMAT_ERROR_MESSAGE role)

/-- A configuration on which the definitions are evaluated in the examples:
signed `char`, the hostname bound 255 of the specification's scenario, and
bounds of 48, 32, 128, 32 and 32 bytes for the other kinds. -/
def example_config : Config where
  char_is_signed := true
  STUMPLESS_MAX_APP_NAME_LENGTH := 48
  STUMPLESS_MAX_ELEMENT_NAME_LENGTH := 32
  STUMPLESS_MAX_HOSTNAME_LENGTH := 255
  STUMPLESS_MAX_MSGID_LENGTH := 32
  STUMPLESS_MAX_PARAM_NAME_LENGTH := 32
  STUMPLESS_MAX_PROCID_LENGTH := 128
  L10N_STRING_TOO_LONG_ERROR_MESSAGE := "string too long"
  L10N_STRING_LENGTH_ERROR_CODE_TYPE := "string length"
  L10N_FORMAT_ERROR_MESSAGE := fun role => "invalid " ++ role ++ " format"

/-- The same configuration on a target whose plain `char` is unsigned. -/
def example_config_unsigned : Config :=
  { example_config with char_is_signed := false }

/-- The bytes of the string "example.com", without its terminator. -/
def bytes_example_com : List Byte :=
  [101, 120, 97, 109, 112, 108, 101, 46, 99, 111, 109]

/-- The bytes of the string "custom-param", without its terminator. -/
def bytes_custom_param : List Byte :=
  [99, 117, 115, 116, 111, 109, 45, 112, 97, 114, 97, 109]

/-- The bytes of the string "SDID=bad", without its terminator; the equals
sign (61) is at index 4. -/
def bytes_sdid_bad : List Byte :=
  [83, 68, 73, 68, 61, 98, 97, 100]

/-- The bytes of the string "tab", horizontal tab, "char", without its
terminator; the tab (9) is at index 3. -/
def bytes_tab_char : List Byte :=
  [116, 97, 98, 9, 99, 104, 97, 114]

/-- A string of `n` letters `a` (97), without its terminator. -/
def bytes_letters (n : Nat) : List Byte :=
  List.replicate n 97

/-- A string of `n` horizontal tabs (9), without its terminator. -/
def bytes_tabs (n : Nat) : List Byte :=
  List.replicate n 9

/-- Modelled from the spec: the error channel behind `private/error.h` is not
part of the sources at hand.  It is the "last error" facility of the
specification (section 9): it holds the error raised last, if any. -/
structure ErrorChannel where
  last_error : Option Raise
deriving DecidableEq, Repr

/-- Modelled from the spec: raising an error replaces what the channel
holds. -/
def ErrorChannel.raise (_ch : ErrorChannel) (e : Raise) : ErrorChannel :=
  ⟨some e⟩

/-- The channel after the errors of one call have been raised, in order. -/
def ErrorChannel.after (ch : ErrorChannel) (raised : List Raise) : ErrorChannel :=
  raised.foldl ErrorChannel.raise ch

/-- Modelled from the spec: `raise_argument_too_big` of `private/error.h`,
not part of the sources at hand.  It puts an "argument too large" error with its
three arguments in the channel. -/
def raise_argument_too_big (message : String) (arg_size : Nat) (code_type : String)
    (ch : ErrorChannel) : ErrorChannel :=
  ch.raise (Raise.argument_too_big message arg_size code_type)

/-- Modelled from the spec: `raise_invalid_encoding` of `private/error.h`, not
part of the sources at hand.  It puts an "invalid encoding" error with its
message in the channel. -/
def raise_invalid_encoding (message : String) (ch : ErrorChannel) : ErrorChannel :=
  ch.raise (Raise.invalid_encoding message)

/-- State-passing embedding of `validate_string_length` (validate.c:39-51): the
call is made while the error channel holds `ch` and returns the boolean, the
value left in `*length` and the channel after the call. -/
def run_validate_string_length (cfg : Config) (str : List Byte) (max_length : Nat)
    (ch : ErrorChannel) : Option (Bool × Nat × ErrorChannel) :=
  match strlen str with
  | none => none
  | some length =>
    if length > max_length then
      some (false, length,
        raise_argument_too_big cfg.L10N_STRING_TOO_LONG_ERROR_MESSAGE length
          cfg.L10N_STRING_LENGTH_ERROR_CODE_TYPE ch)
    else
      some (true, length, ch)

/-- State-passing form of the loop of `validate_printable_ascii`
(validate.c:140-147), with `k` iterations left before `i` reaches `length`. -/
def run_validate_printable_ascii_loop (cfg : Config) (str : List Byte) :
    Nat → Nat → ErrorChannel → Option (Bool × ErrorChannel)
  | 0, _, ch => some (true, ch)
  | k + 1, i, ch =>
    match str[i]? with
    | none => none
    | some c =>
      if char_value cfg c < 33 ∨ char_value cfg c > 126 then
        some (false,
          raise_invalid_encoding (cfg.L10N_FORMAT_ERROR_MESSAGE "printable ascii") ch)
      else
        run_validate_printable_ascii_loop cfg str k (i + 1) ch

/-- State-passing embedding of `validate_printable_ascii` (validate.c:136-148). -/
def run_validate_printable_ascii (cfg : Config) (str : List Byte) (length : Nat)
    (ch : ErrorChannel) : Option (Bool × ErrorChannel) :=
  run_validate_printable_ascii_loop cfg str length 0 ch

/-- State-passing form of the loop of `validate_name_chars`
(validate.c:109-120), with `k` iterations left before `i` reaches `length`. -/
def run_validate_name_chars_loop (cfg : Config) (str : List Byte) :
    Nat → Nat → ErrorChannel → Option (Bool × ErrorChannel)
  | 0, _, ch => some (true, ch)
  | k + 1, i, ch =>
    match str[i]? with
    | none => none
    | some c =>
      if char_value cfg c < 33 ∨
         char_value cfg c > 126 ∨
         char_value cfg c = 61 ∨
         char_value cfg c = 93 ∨
         char_value cfg c = 34 then
        some (false, raise_invalid_encoding (cfg.L10N_FORMAT_ERROR_MESSAGE "identifier") ch)
      else
        run_validate_name_chars_loop cfg str k (i + 1) ch

/-- State-passing embedding of `validate_name_chars` (validate.c:105-121). -/
def run_validate_name_chars (cfg : Config) (str : List Byte) (length : Nat)
    (ch : ErrorChannel) : Option (Bool × ErrorChannel) :=
  run_validate_name_chars_loop cfg str length 0 ch

/-- State-passing form of `length_check( str, length ) && scan( str, *length )`:
the scan runs only when the length check returned true, on the length it wrote
and the channel it left. -/
def run_and_then_scan (check : Option (Bool × Nat × ErrorChannel))
    (scan : Nat → ErrorChannel → Option (Bool × ErrorChannel)) :
    Option (Bool × Nat × ErrorChannel) :=
  match check with
  | none => none
  | some (ret, length, ch) =>
    if ret = true then
      match scan length ch with
      | none => none
      | some (ret', ch') => some (ret', length, ch')
    else
      some (false, length, ch)

/-- State-passing embedding of `validate_app_name_length` (validate.c:59-64). -/
def run_validate_app_name_length (cfg : Config) (app_name : List Byte) (ch : ErrorChannel) :
    Option (Bool × Nat × ErrorChannel) :=
  run_validate_string_length cfg app_name cfg.STUMPLESS_MAX_APP_NAME_LENGTH ch

/-- State-passing embedding of `validate_app_name` (validate.c:53-57). -/
def run_validate_app_name (cfg : Config) (str : List Byte) (ch : ErrorChannel) :
    Option (Bool × Nat × ErrorChannel) :=
  run_and_then_scan (run_validate_app_name_length cfg str ch) (run_validate_printable_ascii cfg str)

/-- State-passing embedding of `validate_element_name_length` (validate.c:72-77). -/
def run_validate_element_name_length (cfg : Config) (name : List Byte) (ch : ErrorChannel) :
    Option (Bool × Nat × ErrorChannel) :=
  run_validate_string_length cfg name cfg.STUMPLESS_MAX_ELEMENT_NAME_LENGTH ch

/-- State-passing embedding of `validate_element_name` (validate.c:66-70). -/
def run_validate_element_name (cfg : Config) (str : List Byte) (ch : ErrorChannel) :
    Option (Bool × Nat × ErrorChannel) :=
  run_and_then_scan (run_validate_element_name_length cfg str ch) (run_validate_name_chars cfg str)

/-- State-passing embedding of `validate_hostname_length` (validate.c:85-90). -/
def run_validate_hostname_length (cfg : Config) (hostname : List Byte) (ch : ErrorChannel) :
    Option (Bool × Nat × ErrorChannel) :=
  run_validate_string_length cfg hostname cfg.STUMPLESS_MAX_HOSTNAME_LENGTH ch

/-- State-passing embedding of `validate_hostname` (validate.c:79-83). -/
def run_validate_hostname (cfg : Config) (hostname : List Byte) (ch : ErrorChannel) :
    Option (Bool × Nat × ErrorChannel) :=
  run_and_then_scan (run_validate_hostname_length cfg hostname ch) (run_validate_printable_ascii cfg hostname)

/-- State-passing embedding of `validate_msgid_length` (validate.c:98-103). -/
def run_validate_msgid_length (cfg : Config) (msgid : List Byte) (ch : ErrorChannel) :
    Option (Bool × Nat × ErrorChannel) :=
  run_validate_string_length cfg msgid cfg.STUMPLESS_MAX_MSGID_LENGTH ch

/-- State-passing embedding of `validate_msgid` (validate.c:92-96). -/
def run_validate_msgid (cfg : Config) (str : List Byte) (ch : ErrorChannel) :
    Option (Bool × Nat × ErrorChannel) :=
  run_and_then_scan (run_validate_msgid_length cfg str ch) (run_validate_printable_ascii cfg str)

/-- State-passing embedding of `validate_param_name_length` (validate.c:129-134). -/
def run_validate_param_name_length (cfg : Config) (name : List Byte) (ch : ErrorChannel) :
    Option (Bool × Nat × ErrorChannel) :=
  run_validate_string_length cfg name cfg.STUMPLESS_MAX_PARAM_NAME_LENGTH ch

/-- State-passing embedding of `validate_param_name` (validate.c:123-127). -/
def run_validate_param_name (cfg : Config) (str : List Byte) (ch : ErrorChannel) :
    Option (Bool × Nat × ErrorChannel) :=
  run_and_then_scan (run_validate_param_name_length cfg str ch) (run_validate_name_chars cfg str)

/-- State-passing embedding of `validate_procid_length` (validate.c:156-161). -/
def run_validate_procid_length (cfg : Config) (procid : List Byte) (ch : ErrorChannel) :
    Option (Bool × Nat × ErrorChannel) :=
  run_validate_string_length cfg procid cfg.STUMPLESS_MAX_PROCID_LENGTH ch

/-- State-passing embedding of `validate_procid` (validate.c:150-154). -/
def run_validate_procid (cfg : Config) (procid : List Byte) (ch : ErrorChannel) :
    Option (Bool × Nat × ErrorChannel) :=
  run_and_then_scan (run_validate_procid_length cfg procid ch) (run_validate_printable_ascii cfg procid)

/-- A call of `validate_K` made while the error channel holds `ch`. -/
def FieldKind.run_validate (cfg : Config) :
    FieldKind → List Byte → ErrorChannel → Option (Bool × Nat × ErrorChannel)
  | .app_name => run_validate_app_name cfg
  | .hostname => run_validate_hostname cfg
  | .msgid => run_validate_msgid cfg
  | .procid => run_validate_procid cfg
  | .element_name => run_validate_element_name cfg
  | .param_name => run_validate_param_name cfg

/-- The generic validator of the specification's design notes, in its words,
over the content `s` of a string: `Err(LengthExceeded, len S)` if the length
exceeds the maximum of the kind, else `Err(InvalidEncoding, role(policy K))` if
some byte violates the policy of the kind, else `Ok(len S)`.  The policy and the
role come from the field-kind table. -/
def spec_validate (cfg : Config) (K : FieldKind) (s : List Byte) : Except Raise Nat :=
  if s.length > K.max_length cfg then
    .error (length_exceeded cfg s.length)
  else if ∃ b ∈ s, ¬ K.policy.admits b then
    .error (invalid_encoding_of cfg K.policy.role)
  else
    .ok s.length

/-- The bytes of "example.com" followed by a horizontal tab (9) where the
terminator would be, then the terminator. -/
def bytes_example_com_tab : List Byte :=
  bytes_example_com ++ [9, 0]

/-- The bytes of "SDID=bad" with the bytes after the equals sign replaced by
tabs and a byte 200, without terminator. -/
def bytes_sdid_other : List Byte :=
  [83, 68, 73, 68, 61, 9, 9, 200]

/-- The common shape of the two scan loops, used to reason about both at once:
walk `k` bytes from index `i`, stop with `err` at the first byte the policy `p`
does not admit. -/
def policy_scan (p : Policy) (err : Raise) (str : List Byte) :
    Nat → Nat → Option ScanOutcome
  | 0, i => some ⟨true, i, []⟩
  | k + 1, i =>
    match str[i]? with
    | none => none
    | some c =>
      if p.admits c then policy_scan p err str k (i + 1)
      else some ⟨false, i, [err]⟩

/-! ## Auxiliary lemmas -/

theorem char_value_printable (cfg : Config) (b : Byte) :
    (char_value cfg b < 33 ∨ char_value cfg b > 126) ↔
      ¬ Policy.printable_ascii.admits b := by
  unfold char_value Policy.admits
  have hb := b.isLt
  split <;> omega

theorem char_value_restricted (cfg : Config) (b : Byte) :
    (char_value cfg b < 33 ∨ char_value cfg b > 126 ∨ char_value cfg b = 61 ∨
      char_value cfg b = 93 ∨ char_value cfg b = 34) ↔
      ¬ Policy.restricted_name.admits b := by
  unfold char_value Policy.admits
  have hb := b.isLt
  split <;> omega

theorem printable_loop_eq (cfg : Config) (str : List Byte) (k i : Nat) :
    validate_printable_ascii_loop cfg str k i =
      policy_scan .printable_ascii (invalid_encoding_of cfg "printable ascii") str k i := by
  induction k generalizing i with
  | zero => rfl
  | succ k ih =>
    unfold validate_printable_ascii_loop policy_scan
    cases hc : str[i]? with
    | none => rfl
    | some c =>
      simp only [char_value_printable, ih]
      by_cases h : Policy.printable_ascii.admits c <;> simp [h, invalid_encoding_of]

theorem name_loop_eq (cfg : Config) (str : List Byte) (k i : Nat) :
    validate_name_chars_loop cfg str k i =
      policy_scan .restricted_name (invalid_encoding_of cfg "identifier") str k i := by
  induction k generalizing i with
  | zero => rfl
  | succ k ih =>
    unfold validate_name_chars_loop policy_scan
    cases hc : str[i]? with
    | none => rfl
    | some c =>
      simp only [char_value_restricted, ih]
      by_cases h : Policy.restricted_name.admits c <;> simp [h, invalid_encoding_of]

/-- A scan that stays inside the buffer returns. -/
theorem policy_scan_total (p : Policy) (err : Raise) (str : List Byte) (k i : Nat)
    (h : i + k ≤ str.length) : ∃ r, policy_scan p err str k i = some r := by
  induction k generalizing i with
  | zero => exact ⟨_, rfl⟩
  | succ k ih =>
    have hi : i < str.length := by omega
    unfold policy_scan
    rw [List.getElem?_eq_getElem hi]
    by_cases hc : p.admits str[i]
    · simpa [hc] using ih (i + 1) (by omega)
    · exact ⟨⟨false, i, [err]⟩, by simp [hc]⟩

/-- What a returned scan outcome says about the bytes it walked. -/
theorem policy_scan_inv (p : Policy) (err : Raise) (str : List Byte) (k i : Nat)
    (r : ScanOutcome) (h : policy_scan p err str k i = some r) :
    (r.ret = true ∧ r.i = i + k ∧ r.raised = [] ∧
        ∀ j, i ≤ j → j < i + k → ∃ b, str[j]? = some b ∧ p.admits b) ∨
    (r.ret = false ∧ r.raised = [err] ∧ i ≤ r.i ∧ r.i < i + k ∧
        (∃ b, str[r.i]? = some b ∧ ¬ p.admits b) ∧
        ∀ j, i ≤ j → j < r.i → ∃ b, str[j]? = some b ∧ p.admits b) := by
  induction k generalizing i with
  | zero =>
    simp only [policy_scan, Option.some.injEq] at h
    subst h
    exact Or.inl ⟨rfl, rfl, rfl, fun j h1 h2 => by omega⟩
  | succ k ih =>
    unfold policy_scan at h
    cases hc : str[i]? with
    | none => simp [hc] at h
    | some c =>
      simp only [hc] at h
      by_cases hp : p.admits c
      · simp only [hp, if_true] at h
        rcases ih (i + 1) h with ⟨h1, h2, h3, h4⟩ | ⟨h1, h2, h3, h4, h5, h6⟩
        · refine Or.inl ⟨h1, by omega, h3, fun j hj1 hj2 => ?_⟩
          rcases Nat.eq_or_lt_of_le hj1 with e | e
          · subst e; exact ⟨c, hc, hp⟩
          · exact h4 j (by omega) (by omega)
        · refine Or.inr ⟨h1, h2, by omega, by omega, h5, fun j hj1 hj2 => ?_⟩
          rcases Nat.eq_or_lt_of_le hj1 with e | e
          · subst e; exact ⟨c, hc, hp⟩
          · exact h6 j (by omega) hj2
      · simp only [hp, if_false, Option.some.injEq] at h
        subst h
        exact Or.inr ⟨rfl, rfl, Nat.le_refl _, Nat.lt_succ_of_le (Nat.le_add_right _ _),
          ⟨c, hc, hp⟩, fun j h1 h2 => absurd h2 (Nat.not_lt.mpr h1)⟩

/-- A scan stops at the first byte its policy does not admit. -/
theorem policy_scan_first_bad (p : Policy) (err : Raise) (str : List Byte) (k i q : Nat)
    (hiq : i ≤ q) (hqk : q < i + k) (b : Byte) (hb : str[q]? = some b)
    (hbad : ¬ p.admits b)
    (hgood : ∀ j, i ≤ j → j < q → ∃ c, str[j]? = some c ∧ p.admits c) :
    policy_scan p err str k i = some ⟨false, q, [err]⟩ := by
  induction k generalizing i with
  | zero => omega
  | succ k ih =>
    unfold policy_scan
    rcases Nat.eq_or_lt_of_le hiq with e | e
    · subst e
      simp [hb, hbad]
    · obtain ⟨c, hc, hpc⟩ := hgood i (Nat.le_refl _) e
      simp only [hc, hpc, if_true]
      exact ih (i + 1) (by omega) (by omega) (fun j h1 h2 => hgood j (by omega) h2)

/-- A scan over admitted bytes walks all of them and raises nothing. -/
theorem policy_scan_all_good (p : Policy) (err : Raise) (str : List Byte) (k i : Nat)
    (hgood : ∀ j, i ≤ j → j < i + k → ∃ c, str[j]? = some c ∧ p.admits c) :
    policy_scan p err str k i = some ⟨true, i + k, []⟩ := by
  induction k generalizing i with
  | zero => rfl
  | succ k ih =>
    unfold policy_scan
    obtain ⟨c, hc, hpc⟩ := hgood i (Nat.le_refl _) (by omega)
    simp only [hc, hpc, if_true]
    rw [ih (i + 1) (fun j h1 h2 => hgood j (by omega) (by omega))]
    simp only [Option.some.injEq, ScanOutcome.mk.injEq, true_and, and_true]
    omega

theorem strlen_append_nul (s rest : List Byte) (hnul : ∀ b ∈ s, b ≠ 0) :
    strlen (s ++ 0 :: rest) = some s.length := by
  induction s with
  | nil => simp [strlen]
  | cons a s ih =>
    have ha : a ≠ 0 := hnul a (List.mem_cons_self _ _)
    have := ih (fun b hb => hnul b (List.mem_cons_of_mem _ hb))
    simp [strlen, ha, this]

/-- Bytes a policy admits are not NUL. -/
theorem Policy.admits_ne_zero (p : Policy) (b : Byte) (h : p.admits b) : b ≠ 0 := by
  intro e
  subst e
  cases p <;> simp [Policy.admits] at h

theorem validate_string_length_eq (cfg : Config) (s rest : List Byte) (m : Nat)
    (hnul : ∀ b ∈ s, b ≠ 0) :
    validate_string_length cfg (s ++ 0 :: rest) m =
      some (if m < s.length then ⟨false, s.length, [length_exceeded cfg s.length]⟩
            else ⟨true, s.length, []⟩) := by
  unfold validate_string_length
  rw [strlen_append_nul s rest hnul]
  by_cases h : m < s.length <;> simp [h, length_exceeded]

theorem getElem_opt_prefix (s t : List Byte) (j : Nat) (hj : j < s.length) :
    ∃ b, (s ++ t)[j]? = some b ∧ b ∈ s := by
  refine ⟨s[j], ?_, List.getElem_mem hj⟩
  rw [List.getElem?_append_left hj, List.getElem?_eq_getElem hj]

/-- Scanning the whole content of a string whose bytes are all admitted. -/
theorem policy_scan_prefix_good (p : Policy) (err : Raise) (s t : List Byte)
    (h : ∀ b ∈ s, p.admits b) :
    policy_scan p err (s ++ t) s.length 0 = some ⟨true, s.length, []⟩ := by
  have := policy_scan_all_good p err (s ++ t) s.length 0 (fun j _ hj => by
    obtain ⟨b, hb, hmem⟩ := getElem_opt_prefix s t j (by omega)
    exact ⟨b, hb, h b hmem⟩)
  simpa using this

/-- Scanning the whole content of a string with a byte that is not admitted. -/
theorem policy_scan_prefix_bad (p : Policy) (err : Raise) (s t : List Byte)
    (h : ¬ ∀ b ∈ s, p.admits b) :
    ∃ q, q < s.length ∧ policy_scan p err (s ++ t) s.length 0 = some ⟨false, q, [err]⟩ := by
  obtain ⟨r, hr⟩ := policy_scan_total p err (s ++ t) s.length 0 (by simp)
  rcases policy_scan_inv p err (s ++ t) s.length 0 r hr with
    ⟨_, _, _, h4⟩ | ⟨h1, h2, _, h4, _, _⟩
  · exfalso
    apply h
    intro b hb
    obtain ⟨j, hj, rfl⟩ := List.getElem_of_mem hb
    obtain ⟨c, hc, hpc⟩ := h4 j (Nat.zero_le _) (by omega)
    rw [List.getElem?_append_left hj, List.getElem?_eq_getElem hj] at hc
    cases hc
    exact hpc
  · refine ⟨r.i, by omega, ?_⟩
    rw [hr]
    cases r
    simp_all

theorem FieldKind.validate_length_unfold (cfg : Config) (K : FieldKind) (str : List Byte) :
    K.validate_length cfg str = validate_string_length cfg str (K.max_length cfg) := by
  cases K <;> rfl

theorem FieldKind.validate_unfold (cfg : Config) (K : FieldKind) (str : List Byte) :
    K.validate cfg str =
      and_then_scan (validate_string_length cfg str (K.max_length cfg))
        (fun n => policy_scan K.policy (invalid_encoding_of cfg K.policy.role) str n 0) := by
  have hp : validate_printable_ascii cfg str =
      fun n => policy_scan .printable_ascii (invalid_encoding_of cfg "printable ascii") str n 0 :=
    funext fun n => printable_loop_eq cfg str n 0
  have hn : validate_name_chars cfg str =
      fun n => policy_scan .restricted_name (invalid_encoding_of cfg "identifier") str n 0 :=
    funext fun n => name_loop_eq cfg str n 0
  cases K <;>
    simp only [FieldKind.validate, validate_app_name, validate_hostname, validate_msgid,
      validate_procid, validate_element_name, validate_param_name, validate_app_name_length,
      validate_hostname_length, validate_msgid_length, validate_procid_length,
      validate_element_name_length, validate_param_name_length, FieldKind.max_length,
      FieldKind.policy, Policy.role, hp, hn]

/-- A string longer than the bound of its kind: the validator stops after the
length check. -/
theorem FieldKind.validate_too_long (cfg : Config) (K : FieldKind) (s rest : List Byte)
    (hnul : ∀ b ∈ s, b ≠ 0) (hlen : K.max_length cfg < s.length) :
    K.validate cfg (s ++ 0 :: rest) =
      some ⟨false, s.length, [length_exceeded cfg s.length]⟩ := by
  rw [FieldKind.validate_unfold, validate_string_length_eq cfg s rest _ hnul]
  simp [and_then_scan, hlen]

/-- A string within the bound whose bytes are all admitted. -/
theorem FieldKind.validate_good (cfg : Config) (K : FieldKind) (s rest : List Byte)
    (hlen : s.length ≤ K.max_length cfg) (hpol : ∀ b ∈ s, K.policy.admits b) :
    K.validate cfg (s ++ 0 :: rest) = some ⟨true, s.length, []⟩ := by
  rw [FieldKind.validate_unfold, validate_string_length_eq cfg s rest _
    (fun b hb => Policy.admits_ne_zero _ b (hpol b hb))]
  simp [and_then_scan, Nat.not_lt.mpr hlen, policy_scan_prefix_good _ _ s _ hpol]

/-- A string within the bound with a byte that is not admitted. -/
theorem FieldKind.validate_bad_chars (cfg : Config) (K : FieldKind) (s rest : List Byte)
    (hnul : ∀ b ∈ s, b ≠ 0) (hlen : s.length ≤ K.max_length cfg)
    (hpol : ¬ ∀ b ∈ s, K.policy.admits b) :
    K.validate cfg (s ++ 0 :: rest) =
      some ⟨false, s.length, [invalid_encoding_of cfg K.policy.role]⟩ := by
  rw [FieldKind.validate_unfold, validate_string_length_eq cfg s rest _ hnul]
  obtain ⟨q, _, hq⟩ := policy_scan_prefix_bad K.policy
    (invalid_encoding_of cfg K.policy.role) s (0 :: rest) hpol
  simp [and_then_scan, Nat.not_lt.mpr hlen, hq]

/-- The three ways a validator can end on a NUL-terminated string. -/
theorem FieldKind.validate_trichotomy (cfg : Config) (K : FieldKind) (s rest : List Byte)
    (hnul : ∀ b ∈ s, b ≠ 0) :
    (K.max_length cfg < s.length ∧
      K.validate cfg (s ++ 0 :: rest) =
        some ⟨false, s.length, [length_exceeded cfg s.length]⟩) ∨
    (s.length ≤ K.max_length cfg ∧ (∀ b ∈ s, K.policy.admits b) ∧
      K.validate cfg (s ++ 0 :: rest) = some ⟨true, s.length, []⟩) ∨
    (s.length ≤ K.max_length cfg ∧ (¬ ∀ b ∈ s, K.policy.admits b) ∧
      K.validate cfg (s ++ 0 :: rest) =
        some ⟨false, s.length, [invalid_encoding_of cfg K.policy.role]⟩) := by
  by_cases hlen : K.max_length cfg < s.length
  · exact Or.inl ⟨hlen, FieldKind.validate_too_long cfg K s rest hnul hlen⟩
  · have hle : s.length ≤ K.max_length cfg := Nat.not_lt.mp hlen
    by_cases hpol : ∀ b ∈ s, K.policy.admits b
    · exact Or.inr (Or.inl ⟨hle, hpol, FieldKind.validate_good cfg K s rest hle hpol⟩)
    · exact Or.inr (Or.inr ⟨hle, hpol,
        FieldKind.validate_bad_chars cfg K s rest hnul hle hpol⟩)

/-- The first byte a policy does not admit among the first `n` bytes of a
buffer is where the scan of that policy stops. -/
theorem policy_scan_exists_bad (p : Policy) (err : Raise) (str : List Byte) (n : Nat)
    (h : ∃ j b, j < n ∧ str[j]? = some b ∧ ¬ p.admits b) :
    ∃ q b, q < n ∧ str[q]? = some b ∧ ¬ p.admits b ∧
      (∀ j c, j < q → str[j]? = some c → p.admits c) ∧
      policy_scan p err str n 0 = some ⟨false, q, [err]⟩ := by
  classical
  have hex : ∃ j, ∃ b, j < n ∧ str[j]? = some b ∧ ¬ p.admits b := h
  obtain ⟨b, hqn, hb, hbad⟩ := Nat.find_spec hex
  have hmin : ∀ j c, j < Nat.find hex → str[j]? = some c → p.admits c := by
    intro j c hj hc
    by_contra hnot
    exact Nat.find_min hex hj ⟨c, by omega, hc, hnot⟩
  refine ⟨Nat.find hex, b, hqn, hb, hbad, hmin, ?_⟩
  have hqlen : Nat.find hex < str.length := by
    by_contra hge
    rw [List.getElem?_eq_none (Nat.not_lt.mp hge)] at hb
    cases hb
  refine policy_scan_first_bad p err str n 0 _ (Nat.zero_le _) (by omega) b hb hbad ?_
  intro j _ hj
  have hjlen : j < str.length := by omega
  exact ⟨str[j], List.getElem?_eq_getElem hjlen,
    hmin j _ hj (List.getElem?_eq_getElem hjlen)⟩

/-! ## The claims -/

/-- C1. Completeness of every field validator: for each of the six field kinds,
a NUL-terminated string whose byte length is at most the maximum of the kind
and whose bytes all satisfy the character-set policy of the kind is accepted,
and the length written is the byte length of the string. -/
theorem validators_complete (cfg : Config) (K : FieldKind) (s rest : List Byte)
    (hlen : s.length ≤ K.max_length cfg) (hpol : ∀ b ∈ s, K.policy.admits b) :
    K.validate cfg (s ++ 0 :: rest) = some ⟨true, s.length, []⟩ :=
  FieldKind.validate_good cfg K s rest hlen hpol

/-- C2. Soundness of every field validator: if the validator of a field kind
returns true on a NUL-terminated string, then the byte length of the string is
at most the maximum of the kind, every byte lies in the range 33 to 126, and for
element names and param names no byte is the equals sign (61), the closing
bracket (93) or the double quote (34). -/
theorem validators_sound (cfg : Config) (K : FieldKind) (s rest : List Byte)
    (hnul : ∀ b ∈ s, b ≠ 0) (r : Outcome)
    (h : K.validate cfg (s ++ 0 :: rest) = some r) (hret : r.ret = true) :
    s.length ≤ K.max_length cfg ∧
      (∀ b ∈ s, 33 ≤ b.val ∧ b.val ≤ 126) ∧
      (K = .element_name ∨ K = .param_name →
        ∀ b ∈ s, b.val ≠ 61 ∧ b.val ≠ 93 ∧ b.val ≠ 34) := by
  rcases FieldKind.validate_trichotomy cfg K s rest hnul with
    ⟨_, h1⟩ | ⟨hle, hpol, _⟩ | ⟨_, _, h1⟩
  · rw [h1] at h; cases h; cases hret
  · refine ⟨hle, fun b hb => ?_, fun hK b hb => ?_⟩
    · have := hpol b hb
      cases K <;> simp only [FieldKind.policy, Policy.admits] at this <;> omega
    · have := hpol b hb
      rcases hK with rfl | rfl <;>
        simp only [FieldKind.policy, Policy.admits] at this <;> omega
  · rw [h1] at h; cases h; cases hret

/-- C3. Length failure short-circuits: on a NUL-terminated string longer than
the maximum of the field kind the validator returns false and raises exactly
the "argument too large" error of the length check, whatever the bytes of the
string are; its outcome is that of the length-only validator, and no "invalid
encoding" error is raised. -/
theorem length_failure_short_circuits (cfg : Config) (K : FieldKind) (s rest : List Byte)
    (hnul : ∀ b ∈ s, b ≠ 0) (hlen : K.max_length cfg < s.length) :
    K.validate cfg (s ++ 0 :: rest) =
        some ⟨false, s.length,
          [Raise.argument_too_big cfg.L10N_STRING_TOO_LONG_ERROR_MESSAGE s.length
            cfg.L10N_STRING_LENGTH_ERROR_CODE_TYPE]⟩ ∧
      K.validate cfg (s ++ 0 :: rest) = K.validate_length cfg (s ++ 0 :: rest) ∧
      ∀ r, K.validate cfg (s ++ 0 :: rest) = some r →
        ∀ message, Raise.invalid_encoding message ∉ r.raised := by
  have h1 := FieldKind.validate_too_long cfg K s rest hnul hlen
  refine ⟨h1, ?_, ?_⟩
  · rw [h1, FieldKind.validate_length_unfold, validate_string_length_eq cfg s rest _ hnul]
    simp [hlen]
  · intro r hr message
    rw [h1] at hr
    cases hr
    simp [length_exceeded]

/-- C4. The length boundary is inclusive: for every maximum `m`, the length
check returns true on a NUL-terminated string exactly when its byte length is
at most `m`; for each field kind, the length-only validator accepts a string of
exactly the maximum length and rejects one a byte longer. -/
theorem length_boundary_inclusive (cfg : Config) (s rest : List Byte) (m : Nat)
    (hnul : ∀ b ∈ s, b ≠ 0) :
    (∃ r, validate_string_length cfg (s ++ 0 :: rest) m = some r ∧
      (r.ret = true ↔ s.length ≤ m)) ∧
    ∀ K : FieldKind,
      (s.length = K.max_length cfg →
        ∃ r, K.validate_length cfg (s ++ 0 :: rest) = some r ∧ r.ret = true) ∧
      (s.length = K.max_length cfg + 1 →
        ∃ r, K.validate_length cfg (s ++ 0 :: rest) = some r ∧ r.ret = false) := by
  refine ⟨⟨_, validate_string_length_eq cfg s rest m hnul, ?_⟩, fun K => ⟨fun h => ?_, fun h => ?_⟩⟩
  · by_cases h : m < s.length
    · simp [h]
    · simp [h, Nat.not_lt.mp h]
  · refine ⟨⟨true, s.length, []⟩, ?_, rfl⟩
    rw [FieldKind.validate_length_unfold, validate_string_length_eq cfg s rest _ hnul]
    simp [h]
  · refine ⟨⟨false, s.length, [length_exceeded cfg s.length]⟩, ?_, rfl⟩
    rw [FieldKind.validate_length_unfold, validate_string_length_eq cfg s rest _ hnul]
    simp [h]

/-- C5. Non-printable bytes are rejected by both scans: if one of the first `n`
bytes of a buffer has a value below 33 or above 126, then
`validate_printable_ascii` returns false with one "invalid encoding" error and
its loop counter stands at the first such byte, and `validate_name_chars`
returns false with one "invalid encoding" error, at that position or before
it. -/
theorem scans_reject_non_printable (cfg : Config) (str : List Byte) (n : Nat)
    (h : ∃ j b, j < n ∧ str[j]? = some b ∧ (b.val < 33 ∨ 126 < b.val)) :
    ∃ q b, q < n ∧ str[q]? = some b ∧ (b.val < 33 ∨ 126 < b.val) ∧
      (∀ j c, j < q → str[j]? = some c → 33 ≤ c.val ∧ c.val ≤ 126) ∧
      validate_printable_ascii cfg str n =
        some ⟨false, q,
          [Raise.invalid_encoding (cfg.L10N_FORMAT_ERROR_MESSAGE "printable ascii")]⟩ ∧
      ∃ i, i ≤ q ∧ validate_name_chars cfg str n =
        some ⟨false, i,
          [Raise.invalid_encoding (cfg.L10N_FORMAT_ERROR_MESSAGE "identifier")]⟩ := by
  obtain ⟨j, b, hj, hb, hbad⟩ := h
  have hpa : ¬ Policy.printable_ascii.admits b := by
    simp only [Policy.admits]; omega
  obtain ⟨q, c, hq, hc, hcbad, hmin, hscan⟩ :=
    policy_scan_exists_bad .printable_ascii (invalid_encoding_of cfg "printable ascii")
      str n ⟨j, b, hj, hb, hpa⟩
  have hcr : ¬ Policy.restricted_name.admits c := by
    simp only [Policy.admits] at hcbad ⊢; omega
  obtain ⟨i, d, _, _, _, hmin2, hscan2⟩ :=
    policy_scan_exists_bad .restricted_name (invalid_encoding_of cfg "identifier")
      str n ⟨q, c, hq, hc, hcr⟩
  refine ⟨q, c, hq, hc, ?_, ?_, ?_, i, ?_, ?_⟩
  · simp only [Policy.admits] at hcbad; omega
  · intro k e hk he
    have := hmin k e hk he
    simpa only [Policy.admits] using this
  · simpa only [validate_printable_ascii, printable_loop_eq] using hscan
  · by_contra hlt
    exact hcr (hmin2 q c (by omega) hc)
  · simpa only [validate_name_chars, name_loop_eq] using hscan2

/-- C6. Reserved bytes separate the two policies: on a string, scanned over its
full length, whose bytes all lie in the range 33 to 126 and which contains an
equals sign (61), a closing bracket (93) or a double quote (34),
`validate_name_chars` returns false with one "invalid encoding" error while
`validate_printable_ascii` on the same buffer and length returns true and
raises no error. -/
theorem reserved_bytes_separate_policies (cfg : Config) (s rest : List Byte)
    (hrange : ∀ b ∈ s, 33 ≤ b.val ∧ b.val ≤ 126)
    (hres : ∃ b ∈ s, b.val = 61 ∨ b.val = 93 ∨ b.val = 34) :
    (∃ i, i < s.length ∧ validate_name_chars cfg (s ++ rest) s.length =
        some ⟨false, i,
          [Raise.invalid_encoding (cfg.L10N_FORMAT_ERROR_MESSAGE "identifier")]⟩) ∧
      validate_printable_ascii cfg (s ++ rest) s.length = some ⟨true, s.length, []⟩ := by
  constructor
  · have hbad : ¬ ∀ b ∈ s, Policy.restricted_name.admits b := by
      intro hall
      obtain ⟨b, hb, hr⟩ := hres
      have := hall b hb
      simp only [Policy.admits] at this
      omega
    obtain ⟨q, hq, hscan⟩ := policy_scan_prefix_bad .restricted_name
      (invalid_encoding_of cfg "identifier") s rest hbad
    exact ⟨q, hq, by simpa only [validate_name_chars, name_loop_eq] using hscan⟩
  · have := policy_scan_prefix_good .printable_ascii
      (invalid_encoding_of cfg "printable ascii") s rest
      (fun b hb => by simpa only [Policy.admits] using hrange b hb)
    simpa only [validate_printable_ascii, printable_loop_eq] using this

/-- C7. The computed length is written on every outcome: for every field kind
and every NUL-terminated string, both the length-only validator and the
validator return, and the length they leave in the output slot is the byte
length of the string, whatever their boolean result. -/
theorem length_written_on_every_outcome (cfg : Config) (K : FieldKind)
    (s rest : List Byte) (hnul : ∀ b ∈ s, b ≠ 0) :
    (∃ r, K.validate_length cfg (s ++ 0 :: rest) = some r ∧ r.length = s.length) ∧
      (∃ r, K.validate cfg (s ++ 0 :: rest) = some r ∧ r.length = s.length) := by
  constructor
  · rw [FieldKind.validate_length_unfold, validate_string_length_eq cfg s rest _ hnul]
    refine ⟨_, rfl, ?_⟩
    split <;> rfl
  · rcases FieldKind.validate_trichotomy cfg K s rest hnul with
      ⟨_, h⟩ | ⟨_, _, h⟩ | ⟨_, _, h⟩ <;> exact ⟨_, h, rfl⟩

/-- C8. Errors are raised exactly on failure, one per call: on a NUL-terminated
string the validator of a field kind raises nothing when it returns true and
exactly one error when it returns false; that error is an "argument too large"
error when the byte length exceeds the maximum of the kind and an "invalid
encoding" error otherwise. -/
theorem errors_exactly_on_failure (cfg : Config) (K : FieldKind) (s rest : List Byte)
    (hnul : ∀ b ∈ s, b ≠ 0) :
    ∃ r, K.validate cfg (s ++ 0 :: rest) = some r ∧
      (r.ret = true → r.raised = []) ∧
      (r.ret = false → r.raised.length = 1) ∧
      (r.ret = false → K.max_length cfg < s.length →
        ∃ message arg_size code_type,
          r.raised = [Raise.argument_too_big message arg_size code_type]) ∧
      (r.ret = false → s.length ≤ K.max_length cfg →
        ∃ message, r.raised = [Raise.invalid_encoding message]) := by
  rcases FieldKind.validate_trichotomy cfg K s rest hnul with
    ⟨hlen, h⟩ | ⟨hlen, _, h⟩ | ⟨hlen, _, h⟩
  · refine ⟨_, h, ?_, fun _ => rfl, fun _ _ => ⟨_, _, _, rfl⟩,
      fun _ hle => absurd hlen (Nat.not_lt.mpr hle)⟩
    intro e
    cases e
  · refine ⟨_, h, fun _ => rfl, ?_, ?_, ?_⟩ <;>
      · intro e
        cases e
  · refine ⟨_, h, ?_, fun _ => rfl,
      fun _ hlt => absurd hlt (Nat.not_lt.mpr hlen), fun _ _ => ⟨_, rfl⟩⟩
    intro e
    cases e

/-- C9. The "argument too large" error carries the computed length: on a
NUL-terminated string of byte length `L` above the maximum of the field kind,
the validator and the length-only validator both return false, write `L` to the
output length and raise one "argument too large" error whose size argument is
`L`. -/
theorem length_exceeded_carries_length (cfg : Config) (K : FieldKind) (s rest : List Byte)
    (hnul : ∀ b ∈ s, b ≠ 0) (hlen : K.max_length cfg < s.length) :
    ∃ message code_type,
      K.validate cfg (s ++ 0 :: rest) =
        some ⟨false, s.length, [Raise.argument_too_big message s.length code_type]⟩ ∧
      K.validate_length cfg (s ++ 0 :: rest) =
        some ⟨false, s.length, [Raise.argument_too_big message s.length code_type]⟩ := by
  refine ⟨cfg.L10N_STRING_TOO_LONG_ERROR_MESSAGE, cfg.L10N_STRING_LENGTH_ERROR_CODE_TYPE,
    FieldKind.validate_too_long cfg K s rest hnul hlen, ?_⟩
  rw [FieldKind.validate_length_unfold, validate_string_length_eq cfg s rest _ hnul]
  simp [hlen, length_exceeded]

/-- C10. The "invalid encoding" error names the violated role: whenever
`validate_printable_ascii` returns false its one error is tagged "printable
ascii", whenever `validate_name_chars` returns false its one error is tagged
"identifier" (also when the byte it stopped at is merely outside the range 33 to
126), and a validator that returns false on a string within its length bound
raises the error of its scan: "printable ascii" for app name, hostname, msgid
and procid, "identifier" for element name and param name. -/
theorem invalid_encoding_names_role (cfg : Config) :
    (∀ (str : List Byte) (n : Nat) (r : ScanOutcome),
      validate_printable_ascii cfg str n = some r → r.ret = false →
        r.raised = [Raise.invalid_encoding (cfg.L10N_FORMAT_ERROR_MESSAGE "printable ascii")]) ∧
    (∀ (str : List Byte) (n : Nat) (r : ScanOutcome),
      validate_name_chars cfg str n = some r → r.ret = false →
        r.raised = [Raise.invalid_encoding (cfg.L10N_FORMAT_ERROR_MESSAGE "identifier")] ∧
        ∃ b, str[r.i]? = some b ∧
          (b.val < 33 ∨ 126 < b.val ∨ b.val = 61 ∨ b.val = 93 ∨ b.val = 34)) ∧
    (∀ (K : FieldKind) (s rest : List Byte) (r : Outcome), (∀ b ∈ s, b ≠ 0) →
      s.length ≤ K.max_length cfg → K.validate cfg (s ++ 0 :: rest) = some r →
      r.ret = false →
        (K = .app_name ∨ K = .hostname ∨ K = .msgid ∨ K = .procid →
          r.raised =
            [Raise.invalid_encoding (cfg.L10N_FORMAT_ERROR_MESSAGE "printable ascii")]) ∧
        (K = .element_name ∨ K = .param_name →
          r.raised =
            [Raise.invalid_encoding (cfg.L10N_FORMAT_ERROR_MESSAGE "identifier")])) := by
  refine ⟨fun str n r h hret => ?_, fun str n r h hret => ?_,
    fun K s rest r hnul hlen h hret => ?_⟩
  · rw [validate_printable_ascii, printable_loop_eq] at h
    rcases policy_scan_inv _ _ _ _ _ _ h with ⟨h1, _⟩ | ⟨_, h2, _⟩
    · rw [hret] at h1; cases h1
    · exact h2
  · rw [validate_name_chars, name_loop_eq] at h
    rcases policy_scan_inv _ _ _ _ _ _ h with ⟨h1, _⟩ | ⟨_, h2, _, _, ⟨b, hb, hbad⟩, _⟩
    · rw [hret] at h1; cases h1
    · refine ⟨h2, b, hb, ?_⟩
      simp only [Policy.admits] at hbad
      omega
  · rcases FieldKind.validate_trichotomy cfg K s rest hnul with
      ⟨hlt, _⟩ | ⟨_, _, h1⟩ | ⟨_, _, h1⟩
    · exact absurd hlt (Nat.not_lt.mpr hlen)
    · rw [h1] at h; cases h; cases hret
    · rw [h1] at h
      cases h
      constructor
      · rintro (rfl | rfl | rfl | rfl) <;> rfl
      · rintro (rfl | rfl) <;> rfl

/-! ## The claims evaluated on concrete inputs -/

/-- A property of every byte of a list, checked by evaluation over the list. -/
theorem forall_mem_of_all (P : Byte → Prop) [DecidablePred P] (l : List Byte)
    (h : l.all (fun b => decide (P b)) = true) : ∀ b ∈ l, P b := by
  intro b hb
  have := List.all_eq_true.mp h b hb
  simpa using this

theorem bytes_letters_ne_zero (n : Nat) : ∀ b ∈ bytes_letters n, b ≠ 0 := by
  intro b hb
  rw [List.eq_of_mem_replicate hb]
  decide

theorem bytes_letters_length (n : Nat) : (bytes_letters n).length = n :=
  List.length_replicate n 97

theorem bytes_tabs_ne_zero (n : Nat) : ∀ b ∈ bytes_tabs n, b ≠ 0 := by
  intro b hb
  rw [List.eq_of_mem_replicate hb]
  decide

/-- C1 on the scenarios of the specification: `validate_hostname` accepts
"example.com" with length 11 and `validate_param_name` accepts
"custom-param". -/
theorem validators_complete_witness :
    validate_hostname example_config (bytes_example_com ++ [0]) = some ⟨true, 11, []⟩ ∧
      validate_param_name example_config (bytes_custom_param ++ [0]) =
        some ⟨true, 12, []⟩ :=
  ⟨validators_complete example_config .hostname bytes_example_com [] (by decide)
      (forall_mem_of_all _ _ (by decide)),
    validators_complete example_config .param_name bytes_custom_param [] (by decide)
      (forall_mem_of_all _ _ (by decide))⟩

/-- C2 on concrete inputs: the accepted "custom-param" is within the bound of
32 bytes and free of reserved bytes, and `validate_element_name` does not
return true on "SDID=bad". -/
theorem validators_sound_witness :
    (bytes_custom_param.length ≤ 32 ∧
      (∀ b ∈ bytes_custom_param, 33 ≤ b.val ∧ b.val ≤ 126) ∧
      (∀ b ∈ bytes_custom_param, b.val ≠ 61 ∧ b.val ≠ 93 ∧ b.val ≠ 34)) ∧
    validate_element_name example_config (bytes_sdid_bad ++ [0]) =
      some ⟨false, 8, [Raise.invalid_encoding "invalid identifier format"]⟩ ∧
    ¬ ∃ r, validate_element_name example_config (bytes_sdid_bad ++ [0]) = some r ∧
      r.ret = true :=
  have h := validators_sound example_config .param_name bytes_custom_param []
    (forall_mem_of_all _ _ (by decide)) ⟨true, 12, []⟩ (by decide) rfl
  ⟨⟨h.1, h.2.1, h.2.2 (Or.inr rfl)⟩, by decide,
    fun ⟨r, hr, hret⟩ =>
      absurd ((validators_sound example_config .element_name bytes_sdid_bad []
        (forall_mem_of_all _ _ (by decide)) r hr hret).2.2 (Or.inl rfl) 61
          (by decide)).1 (by decide)⟩

/-- C3 on a concrete input: a msgid of 33 tab bytes, above the bound of 32,
fails with the length error alone although every byte is non-printable. -/
theorem length_failure_short_circuits_witness :
    (∀ b ∈ bytes_tabs 33, b ≠ 0) ∧ 32 < (bytes_tabs 33).length ∧
    validate_msgid example_config (bytes_tabs 33 ++ [0]) =
      some ⟨false, 33, [Raise.argument_too_big "string too long" 33 "string length"]⟩ :=
  ⟨bytes_tabs_ne_zero 33, by simp [bytes_tabs],
    (length_failure_short_circuits example_config .msgid (bytes_tabs 33) []
      (bytes_tabs_ne_zero 33)
      (by simp [bytes_tabs, FieldKind.max_length, example_config])).1⟩

/-- C4 on concrete inputs: with the msgid bound of 32, a string of 32 bytes
passes the length check and one of 33 bytes fails it. -/
theorem length_boundary_inclusive_witness :
    (∃ r, validate_string_length example_config (bytes_letters 32 ++ [0]) 32 = some r ∧
      (r.ret = true ↔ (bytes_letters 32).length ≤ 32)) ∧
    (∃ r, validate_msgid_length example_config (bytes_letters 32 ++ [0]) = some r ∧
      r.ret = true) ∧
    (∃ r, validate_msgid_length example_config (bytes_letters 33 ++ [0]) = some r ∧
      r.ret = false) :=
  ⟨(length_boundary_inclusive example_config (bytes_letters 32) [] 32
      (bytes_letters_ne_zero 32)).1,
    ((length_boundary_inclusive example_config (bytes_letters 32) [] 32
      (bytes_letters_ne_zero 32)).2 .msgid).1
      (by simp [bytes_letters, FieldKind.max_length, example_config]),
    ((length_boundary_inclusive example_config (bytes_letters 33) [] 32
      (bytes_letters_ne_zero 33)).2 .msgid).2
      (by simp [bytes_letters, FieldKind.max_length, example_config])⟩

/-- C5 on the scenario of the specification: over the 8 bytes of "tab", tab,
"char" both scans stop at index 3, where the tab (byte 9) is. -/
theorem scans_reject_non_printable_witness :
    (∃ q b, q < 8 ∧ (bytes_tab_char ++ [0])[q]? = some b ∧ (b.val < 33 ∨ 126 < b.val) ∧
      (∀ j c, j < q → (bytes_tab_char ++ [0])[j]? = some c → 33 ≤ c.val ∧ c.val ≤ 126) ∧
      validate_printable_ascii example_config (bytes_tab_char ++ [0]) 8 =
        some ⟨false, q,
          [Raise.invalid_encoding
            (example_config.L10N_FORMAT_ERROR_MESSAGE "printable ascii")]⟩ ∧
      ∃ i, i ≤ q ∧ validate_name_chars example_config (bytes_tab_char ++ [0]) 8 =
        some ⟨false, i,
          [Raise.invalid_encoding (example_config.L10N_FORMAT_ERROR_MESSAGE "identifier")]⟩) ∧
    validate_printable_ascii example_config (bytes_tab_char ++ [0]) 8 =
      some ⟨false, 3, [Raise.invalid_encoding "invalid printable ascii format"]⟩ ∧
    validate_name_chars example_config (bytes_tab_char ++ [0]) 8 =
      some ⟨false, 3, [Raise.invalid_encoding "invalid identifier format"]⟩ :=
  ⟨scans_reject_non_printable example_config (bytes_tab_char ++ [0]) 8
      ⟨3, 9, by decide, by decide, Or.inl (by decide)⟩,
    by decide, by decide⟩

/-- C6 on a concrete input: over the 8 bytes of "SDID=bad" the name scan fails
and the printable scan succeeds. -/
theorem reserved_bytes_separate_policies_witness :
    (∃ i, i < 8 ∧ validate_name_chars example_config (bytes_sdid_bad ++ [0]) 8 =
        some ⟨false, i,
          [Raise.invalid_encoding (example_config.L10N_FORMAT_ERROR_MESSAGE "identifier")]⟩) ∧
      validate_printable_ascii example_config (bytes_sdid_bad ++ [0]) 8 =
        some ⟨true, 8, []⟩ :=
  reserved_bytes_separate_policies example_config bytes_sdid_bad [0]
    (forall_mem_of_all _ _ (by decide)) ⟨61, by decide, Or.inl rfl⟩

/-- C7 on concrete inputs, one per outcome: the accepted "example.com", a msgid
of 33 letters that fails the length check, and "tab", tab, "char" that fails
the scan. -/
theorem length_written_on_every_outcome_witness :
    ((∃ r, validate_hostname_length example_config (bytes_example_com ++ [0]) = some r ∧
        r.length = 11) ∧
      (∃ r, validate_hostname example_config (bytes_example_com ++ [0]) = some r ∧
        r.length = 11)) ∧
    ((∃ r, validate_msgid_length example_config (bytes_letters 33 ++ [0]) = some r ∧
        r.length = (bytes_letters 33).length) ∧
      (∃ r, validate_msgid example_config (bytes_letters 33 ++ [0]) = some r ∧
        r.length = (bytes_letters 33).length)) ∧
    ((∃ r, validate_hostname_length example_config (bytes_tab_char ++ [0]) = some r ∧
        r.length = 8) ∧
      (∃ r, validate_hostname example_config (bytes_tab_char ++ [0]) = some r ∧
        r.length = 8)) :=
  ⟨length_written_on_every_outcome example_config .hostname bytes_example_com []
      (forall_mem_of_all _ _ (by decide)),
    length_written_on_every_outcome example_config .msgid (bytes_letters 33) []
      (bytes_letters_ne_zero 33),
    length_written_on_every_outcome example_config .hostname bytes_tab_char []
      (forall_mem_of_all _ _ (by decide))⟩

/-- C8 on a concrete input: `validate_element_name` on "SDID=bad", which is
within the bound of 32 bytes, returns false with exactly one error, an "invalid
encoding" error. -/
theorem errors_exactly_on_failure_witness :
    (∀ b ∈ bytes_sdid_bad, b ≠ 0) ∧
    ∃ r, validate_element_name example_config (bytes_sdid_bad ++ [0]) = some r ∧
      (r.ret = true → r.raised = []) ∧
      (r.ret = false → r.raised.length = 1) ∧
      (r.ret = false → 32 < 8 →
        ∃ message arg_size code_type,
          r.raised = [Raise.argument_too_big message arg_size code_type]) ∧
      (r.ret = false → 8 ≤ 32 → ∃ message, r.raised = [Raise.invalid_encoding message]) :=
  ⟨forall_mem_of_all _ _ (by decide),
    errors_exactly_on_failure example_config .element_name bytes_sdid_bad []
      (forall_mem_of_all _ _ (by decide))⟩

/-- C9 on the scenario of the specification: a hostname of 256 bytes with the
bound 255 fails with an "argument too large" error carrying 256, and 256 is the
length written. -/
theorem length_exceeded_carries_length_witness :
    (∀ b ∈ bytes_letters 256, b ≠ 0) ∧ (bytes_letters 256).length = 256 ∧
    ∃ message code_type,
      validate_hostname example_config (bytes_letters 256 ++ [0]) =
        some ⟨false, 256, [Raise.argument_too_big message 256 code_type]⟩ ∧
      validate_hostname_length example_config (bytes_letters 256 ++ [0]) =
        some ⟨false, 256, [Raise.argument_too_big message 256 code_type]⟩ := by
  have h := length_exceeded_carries_length example_config .hostname (bytes_letters 256) []
    (bytes_letters_ne_zero 256) (by rw [bytes_letters_length]; decide)
  rw [bytes_letters_length] at h
  exact ⟨bytes_letters_ne_zero 256, bytes_letters_length 256, h⟩

/-- C10 on concrete inputs: the printable scan of "tab", tab, "char" raises the
error tagged "printable ascii"; the name scan of the same bytes, stopped by a
byte that is merely out of range, raises the error tagged "identifier"; so do
`validate_hostname` on these bytes and `validate_param_name` on "SDID=bad". -/
theorem invalid_encoding_names_role_witness :
    (validate_printable_ascii example_config (bytes_tab_char ++ [0]) 8 =
        some ⟨false, 3, [Raise.invalid_encoding "invalid printable ascii format"]⟩ ∧
      [Raise.invalid_encoding "invalid printable ascii format"] =
        [Raise.invalid_encoding (example_config.L10N_FORMAT_ERROR_MESSAGE "printable ascii")]) ∧
    (validate_name_chars example_config (bytes_tab_char ++ [0]) 8 =
        some ⟨false, 3, [Raise.invalid_encoding "invalid identifier format"]⟩ ∧
      [Raise.invalid_encoding "invalid identifier format"] =
        [Raise.invalid_encoding (example_config.L10N_FORMAT_ERROR_MESSAGE "identifier")]) ∧
    (validate_hostname example_config (bytes_tab_char ++ [0]) =
        some ⟨false, 8, [Raise.invalid_encoding "invalid printable ascii format"]⟩ ∧
      [Raise.invalid_encoding "invalid printable ascii format"] =
        [Raise.invalid_encoding (example_config.L10N_FORMAT_ERROR_MESSAGE "printable ascii")]) ∧
    (validate_param_name example_config (bytes_sdid_bad ++ [0]) =
        some ⟨false, 8, [Raise.invalid_encoding "invalid identifier format"]⟩ ∧
      [Raise.invalid_encoding "invalid identifier format"] =
        [Raise.invalid_encoding (example_config.L10N_FORMAT_ERROR_MESSAGE "identifier")]) :=
  ⟨⟨by decide, (invalid_encoding_names_role example_config).1 (bytes_tab_char ++ [0]) 8
      ⟨false, 3, [Raise.invalid_encoding "invalid printable ascii format"]⟩ (by decide) rfl⟩,
    ⟨by decide, ((invalid_encoding_names_role example_config).2.1 (bytes_tab_char ++ [0]) 8
      ⟨false, 3, [Raise.invalid_encoding "invalid identifier format"]⟩ (by decide) rfl).1⟩,
    ⟨by decide, ((invalid_encoding_names_role example_config).2.2 .hostname bytes_tab_char []
      ⟨false, 8, [Raise.invalid_encoding "invalid printable ascii format"]⟩
      (forall_mem_of_all _ _ (by decide)) (by decide) (by decide) rfl).1
        (Or.inr (Or.inl rfl))⟩,
    ⟨by decide, ((invalid_encoding_names_role example_config).2.2 .param_name bytes_sdid_bad []
      ⟨false, 8, [Raise.invalid_encoding "invalid identifier format"]⟩
      (forall_mem_of_all _ _ (by decide)) (by decide) (by decide) rfl).2 (Or.inr rfl)⟩⟩

/-! ## Empty strings, length-only validators and repeated calls -/

/-- Raising the errors of a failed call: the channel ends up holding the one
error raised, whatever it held before. -/
theorem ErrorChannel.after_singleton (ch : ErrorChannel) (e : Raise) :
    ch.after [e] = ⟨some e⟩ := rfl

/-- A call that raises nothing leaves the channel as it was. -/
theorem ErrorChannel.after_nil (ch : ErrorChannel) : ch.after [] = ch := rfl

/-- C11. Empty input passes the scans: with length 0 both scans return true on
every buffer and raise nothing, and for every field kind the validator applied
to the empty string returns true with output length 0 and raises nothing. -/
theorem empty_input_passes (cfg : Config) :
    (∀ str : List Byte,
      validate_printable_ascii cfg str 0 = some ⟨true, 0, []⟩ ∧
      validate_name_chars cfg str 0 = some ⟨true, 0, []⟩) ∧
    (∀ (K : FieldKind) (rest : List Byte),
      K.validate cfg (0 :: rest) = some ⟨true, 0, []⟩) := by
  refine ⟨fun str => ⟨rfl, rfl⟩, fun K rest => ?_⟩
  have := FieldKind.validate_good cfg K [] rest (Nat.zero_le _)
    (fun b hb => absurd hb (List.not_mem_nil b))
  simpa using this

/-- C12, as amended. A bound of zero does not forbid empty values: with a
maximum length of 0 the length check accepts the zero-length string, writing
length 0 and raising nothing, and rejects exactly the strings of one byte or
more, each with one "argument too large" error carrying its length. -/
theorem zero_bound_accepts_only_empty (cfg : Config) (s rest : List Byte)
    (hnul : ∀ b ∈ s, b ≠ 0) :
    validate_string_length cfg (0 :: rest) 0 = some ⟨true, 0, []⟩ ∧
    (s ≠ [] →
      validate_string_length cfg (s ++ 0 :: rest) 0 =
        some ⟨false, s.length,
          [Raise.argument_too_big cfg.L10N_STRING_TOO_LONG_ERROR_MESSAGE s.length
            cfg.L10N_STRING_LENGTH_ERROR_CODE_TYPE]⟩) ∧
    ∃ r, validate_string_length cfg (s ++ 0 :: rest) 0 = some r ∧
      (r.ret = false ↔ s ≠ []) := by
  have h := validate_string_length_eq cfg s rest 0 hnul
  refine ⟨?_, fun hne => ?_, ?_⟩
  · have h0 := validate_string_length_eq cfg [] rest 0
      (fun b hb => absurd hb (List.not_mem_nil b))
    simpa using h0
  · have hpos : 0 < s.length := List.length_pos.mpr hne
    rw [h]
    simp [hpos, length_exceeded]
  · refine ⟨_, h, ?_⟩
    by_cases hpos : 0 < s.length
    · simp [hpos, List.length_pos.mp hpos]
    · have he : s = [] := List.length_eq_zero.mp (by omega)
      simp [he]

/-- C13. Length-only validators ignore character content: on a NUL-terminated
string the length-only validator of a field kind returns true exactly when the
byte length is at most the maximum of the kind, raising nothing in that case,
and it gives one and the same outcome on any two strings of equal byte
length. -/
theorem length_only_ignores_content (cfg : Config) (K : FieldKind)
    (s rest s' rest' : List Byte) (hnul : ∀ b ∈ s, b ≠ 0) (hnul' : ∀ b ∈ s', b ≠ 0)
    (hlen : s'.length = s.length) :
    (∃ r, K.validate_length cfg (s ++ 0 :: rest) = some r ∧
      (r.ret = true ↔ s.length ≤ K.max_length cfg) ∧
      (s.length ≤ K.max_length cfg → r.raised = [])) ∧
    K.validate_length cfg (s' ++ 0 :: rest') = K.validate_length cfg (s ++ 0 :: rest) := by
  rw [FieldKind.validate_length_unfold, FieldKind.validate_length_unfold,
    validate_string_length_eq cfg s rest _ hnul,
    validate_string_length_eq cfg s' rest' _ hnul', hlen]
  refine ⟨⟨_, rfl, ?_, ?_⟩, rfl⟩
  · by_cases h : K.max_length cfg < s.length
    · simp [h]
    · simp [h, Nat.not_lt.mp h]
  · intro h
    simp [Nat.not_lt.mpr h]

/-- The channel after the errors of two calls in a row. -/
theorem ErrorChannel.after_append (ch : ErrorChannel) (l₁ l₂ : List Raise) :
    ch.after (l₁ ++ l₂) = (ch.after l₁).after l₂ := by
  simp [ErrorChannel.after, List.foldl_append]

/-- The state-passing length check returns what the length check returns and
leaves the channel with the errors of the call raised on it. -/
theorem run_validate_string_length_eq (cfg : Config) (str : List Byte) (m : Nat)
    (ch : ErrorChannel) :
    run_validate_string_length cfg str m ch =
      (validate_string_length cfg str m).map
        (fun r => (r.ret, r.length, ch.after r.raised)) := by
  unfold run_validate_string_length validate_string_length
  cases strlen str with
  | none => rfl
  | some n =>
    by_cases h : n > m
    · simp only [h, if_true, Option.map_some']
      rfl
    · simp only [h, if_false, Option.map_some']
      rfl

theorem run_validate_printable_ascii_loop_eq (cfg : Config) (str : List Byte) (k i : Nat)
    (ch : ErrorChannel) :
    run_validate_printable_ascii_loop cfg str k i ch =
      (validate_printable_ascii_loop cfg str k i).map
        (fun r => (r.ret, ch.after r.raised)) := by
  induction k generalizing i with
  | zero => rfl
  | succ k ih =>
    unfold run_validate_printable_ascii_loop validate_printable_ascii_loop
    cases str[i]? with
    | none => rfl
    | some c =>
      by_cases h : char_value cfg c < 33 ∨ char_value cfg c > 126
      · simp only [h, if_true, Option.map_some']
        rfl
      · simp only [h, if_false]
        exact ih (i + 1)

theorem run_validate_name_chars_loop_eq (cfg : Config) (str : List Byte) (k i : Nat)
    (ch : ErrorChannel) :
    run_validate_name_chars_loop cfg str k i ch =
      (validate_name_chars_loop cfg str k i).map
        (fun r => (r.ret, ch.after r.raised)) := by
  induction k generalizing i with
  | zero => rfl
  | succ k ih =>
    unfold run_validate_name_chars_loop validate_name_chars_loop
    cases str[i]? with
    | none => rfl
    | some c =>
      by_cases h : char_value cfg c < 33 ∨ char_value cfg c > 126 ∨ char_value cfg c = 61 ∨
          char_value cfg c = 93 ∨ char_value cfg c = 34
      · simp only [h, if_true, Option.map_some']
        rfl
      · simp only [h, if_false]
        exact ih (i + 1)

/-- The state-passing composition follows the composition of the outcomes. -/
theorem run_and_then_scan_eq (check : Option Outcome) (scan : Nat → Option ScanOutcome)
    (ch : ErrorChannel) (rscan : Nat → ErrorChannel → Option (Bool × ErrorChannel))
    (hscan : ∀ n c, rscan n c = (scan n).map (fun r => (r.ret, c.after r.raised))) :
    run_and_then_scan (check.map (fun r => (r.ret, r.length, ch.after r.raised))) rscan =
      (and_then_scan check scan).map (fun r => (r.ret, r.length, ch.after r.raised)) := by
  cases check with
  | none => rfl
  | some r =>
    simp only [Option.map_some', run_and_then_scan, and_then_scan, hscan]
    by_cases hr : r.ret = true
    · simp only [hr, if_true]
      cases scan r.length with
      | none => rfl
      | some t => simp [ErrorChannel.after_append]
    · simp [hr]

/-- Every state-passing validator returns what the validator returns and
leaves the channel with the errors of the call raised on it. -/
theorem FieldKind.run_validate_eq (cfg : Config) (K : FieldKind) (str : List Byte)
    (ch : ErrorChannel) :
    K.run_validate cfg str ch =
      (K.validate cfg str).map (fun r => (r.ret, r.length, ch.after r.raised)) := by
  have hp : ∀ n c, run_validate_printable_ascii cfg str n c =
      (validate_printable_ascii cfg str n).map (fun r => (r.ret, c.after r.raised)) :=
    fun n c => run_validate_printable_ascii_loop_eq cfg str n 0 c
  have hn : ∀ n c, run_validate_name_chars cfg str n c =
      (validate_name_chars cfg str n).map (fun r => (r.ret, c.after r.raised)) :=
    fun n c => run_validate_name_chars_loop_eq cfg str n 0 c
  cases K <;>
    simp only [FieldKind.run_validate, FieldKind.validate, run_validate_app_name,
      run_validate_hostname, run_validate_msgid, run_validate_procid,
      run_validate_element_name, run_validate_param_name, run_validate_app_name_length,
      run_validate_hostname_length, run_validate_msgid_length, run_validate_procid_length,
      run_validate_element_name_length, run_validate_param_name_length,
      validate_app_name, validate_hostname, validate_msgid, validate_procid,
      validate_element_name, validate_param_name, validate_app_name_length,
      validate_hostname_length, validate_msgid_length, validate_procid_length,
      validate_element_name_length, validate_param_name_length,
      run_validate_string_length_eq] <;>
    first
      | exact run_and_then_scan_eq _ _ ch _ hp
      | exact run_and_then_scan_eq _ _ ch _ hn

/-- C14. Idempotence: a call of the validator of a field kind on a
NUL-terminated string, made while the error channel holds anything, returns a
boolean and a length and raises the errors `raised` (none on true, one on
false); a second call on the same string, made with the channel the first one
left, returns the same boolean and the same length and leaves the same channel;
and from any other starting channel the call returns the same boolean and
length and raises the same errors. -/
theorem validators_idempotent (cfg : Config) (K : FieldKind) (s rest : List Byte)
    (hnul : ∀ b ∈ s, b ≠ 0) (ch ch' : ErrorChannel) :
    ∃ (ret : Bool) (length : Nat) (raised : List Raise),
      K.run_validate cfg (s ++ 0 :: rest) ch = some (ret, length, ch.after raised) ∧
      K.run_validate cfg (s ++ 0 :: rest) (ch.after raised) =
        some (ret, length, ch.after raised) ∧
      K.run_validate cfg (s ++ 0 :: rest) ch' = some (ret, length, ch'.after raised) ∧
      length = s.length ∧
      (ret = true → raised = []) ∧
      (ret = false → ∃ e, raised = [e] ∧ ch.after raised = ⟨some e⟩ ∧
        ch'.after raised = ⟨some e⟩) := by
  rcases FieldKind.validate_trichotomy cfg K s rest hnul with
    ⟨_, h⟩ | ⟨_, _, h⟩ | ⟨_, _, h⟩
  · refine ⟨false, s.length, [length_exceeded cfg s.length], ?_, ?_, ?_, rfl, ?_,
      fun _ => ⟨_, rfl, rfl, rfl⟩⟩
    · rw [FieldKind.run_validate_eq, h]; rfl
    · rw [FieldKind.run_validate_eq, h]; rfl
    · rw [FieldKind.run_validate_eq, h]; rfl
    · intro e; cases e
  · refine ⟨true, s.length, [], ?_, ?_, ?_, rfl, fun _ => rfl, ?_⟩
    · rw [FieldKind.run_validate_eq, h]; rfl
    · rw [FieldKind.run_validate_eq, h]; rfl
    · rw [FieldKind.run_validate_eq, h]; rfl
    · intro e; cases e
  · refine ⟨false, s.length, [invalid_encoding_of cfg K.policy.role], ?_, ?_, ?_, rfl, ?_,
      fun _ => ⟨_, rfl, rfl, rfl⟩⟩
    · rw [FieldKind.run_validate_eq, h]; rfl
    · rw [FieldKind.run_validate_eq, h]; rfl
    · rw [FieldKind.run_validate_eq, h]; rfl
    · intro e; cases e

/-! ## What the scans read, refinement and character signedness -/

/-- A scan reads only the bytes at the indices it walks. -/
theorem policy_scan_congr (p : Policy) (err : Raise) (str str' : List Byte) (k i : Nat)
    (h : ∀ j, i ≤ j → j < i + k → str[j]? = str'[j]?) :
    policy_scan p err str k i = policy_scan p err str' k i := by
  induction k generalizing i with
  | zero => rfl
  | succ k ih =>
    unfold policy_scan
    rw [← h i (Nat.le_refl _) (by omega), ih (i + 1) (fun j h1 h2 => h j (by omega) (by omega))]

/-- C15. The scans look only at the byte range below `length`: on two buffers
that hold the same bytes at the indices below `n`, `validate_printable_ascii`
gives the same result and so does `validate_name_chars`; in particular whatever
follows the first `n` bytes, a tab for instance, does not change the result. -/
theorem scans_read_only_below_length (cfg : Config) (str str' : List Byte) (n : Nat)
    (h : ∀ j, j < n → str[j]? = str'[j]?) :
    validate_printable_ascii cfg str n = validate_printable_ascii cfg str' n ∧
      validate_name_chars cfg str n = validate_name_chars cfg str' n := by
  constructor
  · simp only [validate_printable_ascii, printable_loop_eq]
    exact policy_scan_congr _ _ str str' n 0 (fun j _ hj => h j (by omega))
  · simp only [validate_name_chars, name_loop_eq]
    exact policy_scan_congr _ _ str str' n 0 (fun j _ hj => h j (by omega))

/-- The scan of a policy over a buffer with a byte it does not admit among the
first `n`: one error, raised at the first such byte, and the same outcome on
every buffer that agrees with this one up to and including that byte. -/
theorem policy_scan_short_circuits (p : Policy) (err : Raise) (str : List Byte) (n : Nat)
    (h : ∃ j b, j < n ∧ str[j]? = some b ∧ ¬ p.admits b) :
    ∃ q, q < n ∧ (∃ b, str[q]? = some b ∧ ¬ p.admits b) ∧
      (∀ j c, j < q → str[j]? = some c → p.admits c) ∧
      policy_scan p err str n 0 = some ⟨false, q, [err]⟩ ∧
      ∀ str' : List Byte, (∀ j, j ≤ q → str'[j]? = str[j]?) →
        policy_scan p err str' n 0 = some ⟨false, q, [err]⟩ := by
  obtain ⟨q, b, hq, hb, hbad, hmin, hscan⟩ := policy_scan_exists_bad p err str n h
  refine ⟨q, hq, ⟨b, hb, hbad⟩, hmin, hscan, fun str' hagree => ?_⟩
  have hqlen : q < str.length := by
    by_contra hge
    rw [List.getElem?_eq_none (Nat.not_lt.mp hge)] at hb
    cases hb
  refine policy_scan_first_bad p err str' n 0 q (Nat.zero_le _) (by omega) b
    (by rw [hagree q (Nat.le_refl _)]; exact hb) hbad (fun j _ hj => ?_)
  have hjlen : j < str.length := by omega
  refine ⟨str[j], ?_, hmin j _ hj (List.getElem?_eq_getElem hjlen)⟩
  rw [hagree j (by omega)]
  exact List.getElem?_eq_getElem hjlen

/-- C16. The scans short-circuit at the first violation: when one of the first
`n` bytes is forbidden by a scan, the scan returns false having raised exactly
one "invalid encoding" error, with its loop counter at the first forbidden
byte, and it gives this same outcome on every buffer that agrees with the
given one up to and including that byte, whatever bytes come after it. -/
theorem scans_short_circuit (cfg : Config) (str : List Byte) (n : Nat) :
    ((∃ j b, j < n ∧ str[j]? = some b ∧ (b.val < 33 ∨ 126 < b.val)) →
      ∃ q r, validate_printable_ascii cfg str n = some r ∧ r.ret = false ∧ r.i = q ∧
        q < n ∧ (∃ b, str[q]? = some b ∧ (b.val < 33 ∨ 126 < b.val)) ∧
        (∀ j c, j < q → str[j]? = some c → 33 ≤ c.val ∧ c.val ≤ 126) ∧
        r.raised =
          [Raise.invalid_encoding (cfg.L10N_FORMAT_ERROR_MESSAGE "printable ascii")] ∧
        r.raised.length = 1 ∧
        ∀ str' : List Byte, (∀ j, j ≤ q → str'[j]? = str[j]?) →
          validate_printable_ascii cfg str' n = some r) ∧
    ((∃ j b, j < n ∧ str[j]? = some b ∧
        (b.val < 33 ∨ 126 < b.val ∨ b.val = 61 ∨ b.val = 93 ∨ b.val = 34)) →
      ∃ q r, validate_name_chars cfg str n = some r ∧ r.ret = false ∧ r.i = q ∧
        q < n ∧ (∃ b, str[q]? = some b ∧
          (b.val < 33 ∨ 126 < b.val ∨ b.val = 61 ∨ b.val = 93 ∨ b.val = 34)) ∧
        (∀ j c, j < q → str[j]? = some c →
          (33 ≤ c.val ∧ c.val ≤ 126) ∧ c.val ≠ 61 ∧ c.val ≠ 93 ∧ c.val ≠ 34) ∧
        r.raised = [Raise.invalid_encoding (cfg.L10N_FORMAT_ERROR_MESSAGE "identifier")] ∧
        r.raised.length = 1 ∧
        ∀ str' : List Byte, (∀ j, j ≤ q → str'[j]? = str[j]?) →
          validate_name_chars cfg str' n = some r) := by
  constructor
  · rintro ⟨j, b, hj, hb, hbad⟩
    obtain ⟨q, hq, ⟨c, hc, hcbad⟩, hmin, hscan, hrep⟩ :=
      policy_scan_short_circuits .printable_ascii (invalid_encoding_of cfg "printable ascii")
        str n ⟨j, b, hj, hb, by simp only [Policy.admits]; omega⟩
    refine ⟨q, ⟨false, q, [invalid_encoding_of cfg "printable ascii"]⟩,
      by simpa only [validate_printable_ascii, printable_loop_eq] using hscan,
      rfl, rfl, hq, ⟨c, hc, ?_⟩, fun k e hk he => ?_, rfl, rfl, fun str' hagree => ?_⟩
    · simp only [Policy.admits] at hcbad; omega
    · simpa only [Policy.admits] using hmin k e hk he
    · simpa only [validate_printable_ascii, printable_loop_eq] using hrep str' hagree
  · rintro ⟨j, b, hj, hb, hbad⟩
    obtain ⟨q, hq, ⟨c, hc, hcbad⟩, hmin, hscan, hrep⟩ :=
      policy_scan_short_circuits .restricted_name (invalid_encoding_of cfg "identifier")
        str n ⟨j, b, hj, hb, by simp only [Policy.admits]; omega⟩
    refine ⟨q, ⟨false, q, [invalid_encoding_of cfg "identifier"]⟩,
      by simpa only [validate_name_chars, name_loop_eq] using hscan,
      rfl, rfl, hq, ⟨c, hc, ?_⟩, fun k e hk he => ?_, rfl, rfl, fun str' hagree => ?_⟩
    · simp only [Policy.admits] at hcbad; omega
    · simpa only [Policy.admits] using hmin k e hk he
    · simpa only [validate_name_chars, name_loop_eq] using hrep str' hagree

/-- C17. The six hand-written validators equal the generic table-driven
validator of the specification: on a NUL-terminated string with content `s` the
validator of kind `K` returns, and it returns true with length `L` exactly when
`spec_validate` gives `Ok(L)`, and returns false raising the one error `e`
exactly when `spec_validate` gives `Err(e)`. -/
theorem validators_refine_spec_validate (cfg : Config) (K : FieldKind) (s rest : List Byte)
    (hnul : ∀ b ∈ s, b ≠ 0) :
    ∃ r, K.validate cfg (s ++ 0 :: rest) = some r ∧
      (∀ L, (r.ret = true ∧ r.length = L) ↔ spec_validate cfg K s = .ok L) ∧
      (∀ e, (r.ret = false ∧ r.raised = [e]) ↔ spec_validate cfg K s = .error e) := by
  rcases FieldKind.validate_trichotomy cfg K s rest hnul with
    ⟨hlen, h⟩ | ⟨hlen, hpol, h⟩ | ⟨hlen, hpol, h⟩
  · refine ⟨_, h, fun L => ?_, fun e => ?_⟩
    · simp [spec_validate, hlen]
    · simp only [spec_validate, gt_iff_lt, hlen, if_true, true_and, List.cons.injEq,
        and_true, Except.error.injEq]
  · have hno : ¬ ∃ b ∈ s, ¬ K.policy.admits b := by
      rintro ⟨b, hb, hbad⟩
      exact hbad (hpol b hb)
    refine ⟨_, h, fun L => ?_, fun e => ?_⟩
    · simp only [spec_validate, gt_iff_lt, Nat.not_lt.mpr hlen, if_false, hno, true_and,
        Except.ok.injEq]
    · simp only [spec_validate, gt_iff_lt, Nat.not_lt.mpr hlen, if_false, hno]
      constructor
      · rintro ⟨h1, _⟩
        cases h1
      · intro h1
        cases h1
  · have hyes : ∃ b ∈ s, ¬ K.policy.admits b := by
      by_contra hcon
      apply hpol
      intro b hb
      by_contra hbad
      exact hcon ⟨b, hb, hbad⟩
    refine ⟨_, h, fun L => ?_, fun e => ?_⟩
    · simp only [spec_validate, gt_iff_lt, Nat.not_lt.mpr hlen, if_false, hyes, if_true]
      constructor
      · rintro ⟨h1, _⟩
        cases h1
      · intro h1
        cases h1
    · simp only [spec_validate, gt_iff_lt, Nat.not_lt.mpr hlen, if_false, hyes, if_true,
        true_and, List.cons.injEq, and_true, Except.error.injEq]

/-- C18. The restricted-name scan is at least as strict as the printable
scan: whenever `validate_name_chars` returns true on a buffer and length,
`validate_printable_ascii` returns true on them; hence, for a kind `K` among app
name, hostname, msgid and procid whose maximum is not below that of element
names, every string `validate_element_name` accepts is accepted by the
validator of `K`. -/
theorem restricted_name_stricter (cfg : Config) :
    (∀ (str : List Byte) (n : Nat) (r : ScanOutcome),
      validate_name_chars cfg str n = some r → r.ret = true →
        validate_printable_ascii cfg str n = some ⟨true, n, []⟩) ∧
    (∀ (K : FieldKind) (s rest : List Byte) (r : Outcome), (∀ b ∈ s, b ≠ 0) →
      (K = .app_name ∨ K = .hostname ∨ K = .msgid ∨ K = .procid) →
      cfg.STUMPLESS_MAX_ELEMENT_NAME_LENGTH ≤ K.max_length cfg →
      validate_element_name cfg (s ++ 0 :: rest) = some r → r.ret = true →
        K.validate cfg (s ++ 0 :: rest) = some ⟨true, s.length, []⟩) := by
  refine ⟨fun str n r h hret => ?_, fun K s rest r hnul hK hmax h hret => ?_⟩
  · rw [validate_name_chars, name_loop_eq] at h
    rcases policy_scan_inv _ _ _ _ _ _ h with ⟨_, _, _, hall⟩ | ⟨h1, _⟩
    · rw [validate_printable_ascii, printable_loop_eq]
      have := policy_scan_all_good .printable_ascii
        (invalid_encoding_of cfg "printable ascii") str n 0 (fun j h1 h2 => by
          obtain ⟨b, hb, hadm⟩ := hall j h1 h2
          exact ⟨b, hb, hadm.1⟩)
      simpa using this
    · rw [hret] at h1; cases h1
  · rcases FieldKind.validate_trichotomy cfg .element_name s rest hnul with
      ⟨_, h1⟩ | ⟨hle, hpol, _⟩ | ⟨_, _, h1⟩
    · rw [show FieldKind.validate cfg .element_name = validate_element_name cfg from rfl,
        h] at h1
      cases h1; cases hret
    · refine FieldKind.validate_good cfg K s rest (Nat.le_trans hle hmax) (fun b hb => ?_)
      have := (hpol b hb).1
      rcases hK with rfl | rfl | rfl | rfl <;> exact this
    · rw [show FieldKind.validate cfg .element_name = validate_element_name cfg from rfl,
        h] at h1
      cases h1; cases hret

/-- What a scan does on a buffer of one byte. -/
theorem policy_scan_single (p : Policy) (err : Raise) (b : Byte) :
    policy_scan p err [b] 1 0 =
      if p.admits b then some ⟨true, 1, []⟩ else some ⟨false, 0, [err]⟩ := by
  simp [policy_scan]

/-- C19. The scans do not depend on the signedness of `char`: for every byte,
the test `c < 33 || c > 126` gives the same answer on the unsigned reading of
the byte and on its signed two's-complement reading; on both kinds of target a
byte of value 128 to 255 among the first `n` makes both scans return false, and
the bytes each scan accepts are exactly those of value 33 to 126, without 61, 93
and 34 for `validate_name_chars`. -/
theorem scans_independent_of_char_signedness (cs cu : Config)
    (hs : cs.char_is_signed = true) (hu : cu.char_is_signed = false) (b : Byte) :
    (char_value cu b = (b.val : Int) ∧
      char_value cs b = if 128 ≤ b.val then (b.val : Int) - 256 else (b.val : Int)) ∧
    ((char_value cs b < 33 ∨ char_value cs b > 126) ↔
      (char_value cu b < 33 ∨ char_value cu b > 126)) ∧
    ∀ cfg : Config, cfg = cs ∨ cfg = cu →
      (128 ≤ b.val → ∀ (str : List Byte) (n j : Nat), j < n → str[j]? = some b →
        (∃ r, validate_printable_ascii cfg str n = some r ∧ r.ret = false) ∧
        (∃ r, validate_name_chars cfg str n = some r ∧ r.ret = false)) ∧
      (validate_printable_ascii cfg [b] 1 = some ⟨true, 1, []⟩ ↔
        33 ≤ b.val ∧ b.val ≤ 126) ∧
      (validate_name_chars cfg [b] 1 = some ⟨true, 1, []⟩ ↔
        (33 ≤ b.val ∧ b.val ≤ 126) ∧ b.val ≠ 61 ∧ b.val ≠ 93 ∧ b.val ≠ 34) := by
  refine ⟨⟨?_, ?_⟩, ?_, fun cfg _ => ⟨fun hb str n j hj hstr => ⟨?_, ?_⟩, ?_, ?_⟩⟩
  · simp [char_value, hu]
  · simp [char_value, hs]
  · rw [char_value_printable, char_value_printable]
  · obtain ⟨q, _, _, _, _, _, hscan⟩ :=
      policy_scan_exists_bad .printable_ascii (invalid_encoding_of cfg "printable ascii")
        str n ⟨j, b, hj, hstr, by simp only [Policy.admits]; omega⟩
    exact ⟨_, by simpa only [validate_printable_ascii, printable_loop_eq] using hscan, rfl⟩
  · obtain ⟨q, _, _, _, _, _, hscan⟩ :=
      policy_scan_exists_bad .restricted_name (invalid_encoding_of cfg "identifier")
        str n ⟨j, b, hj, hstr, by simp only [Policy.admits]; omega⟩
    exact ⟨_, by simpa only [validate_name_chars, name_loop_eq] using hscan, rfl⟩
  · rw [validate_printable_ascii, printable_loop_eq, policy_scan_single]
    by_cases h : Policy.printable_ascii.admits b
    · rw [if_pos h]
      exact ⟨fun _ => h, fun _ => rfl⟩
    · rw [if_neg h]
      refine ⟨fun e => ?_, fun e => absurd e h⟩
      cases e
  · rw [validate_name_chars, name_loop_eq, policy_scan_single]
    by_cases h : Policy.restricted_name.admits b
    · rw [if_pos h]
      exact ⟨fun _ => h, fun _ => rfl⟩
    · rw [if_neg h]
      refine ⟨fun e => ?_, fun e => absurd e h⟩
      cases e

/-! ## The further claims evaluated on concrete inputs -/

/-- C12 as stated fails: with a maximum length of 0 the length check returns
true on the empty string, with length 0 and no error, so it does not return
false there. -/
theorem zero_bound_rejects_empty_counterexample :
    validate_string_length example_config [0] 0 = some ⟨true, 0, []⟩ ∧
      ¬ ∃ r, validate_string_length example_config [0] 0 = some r ∧ r.ret = false := by
  have h : validate_string_length example_config [0] 0 = some ⟨true, 0, []⟩ := by decide
  refine ⟨h, ?_⟩
  rintro ⟨r, hr, hret⟩
  rw [h] at hr
  cases hr
  cases hret

/-- C12, as amended, on concrete inputs: with bound 0 the empty string passes
and the one-byte string "a" fails with the length error carrying 1. -/
theorem zero_bound_accepts_only_empty_witness :
    (∀ b ∈ bytes_letters 1, b ≠ 0) ∧
    validate_string_length example_config [0] 0 = some ⟨true, 0, []⟩ ∧
    validate_string_length example_config (bytes_letters 1 ++ [0]) 0 =
      some ⟨false, 1, [Raise.argument_too_big "string too long" 1 "string length"]⟩ :=
  have h := zero_bound_accepts_only_empty example_config (bytes_letters 1) []
    (bytes_letters_ne_zero 1)
  ⟨bytes_letters_ne_zero 1, h.1, h.2.1 (by decide)⟩

/-- C13 on concrete inputs: as a msgid, within the bound of 32, the eight bytes
"tab", tab, "char" pass the length-only validator with no error although one is
non-printable, and "SDID=bad", of the same length, gets the same outcome. -/
theorem length_only_ignores_content_witness :
    (∃ r, validate_msgid_length example_config (bytes_tab_char ++ [0]) = some r ∧
      (r.ret = true ↔ 8 ≤ 32) ∧ (8 ≤ 32 → r.raised = [])) ∧
    validate_msgid_length example_config (bytes_sdid_bad ++ [0]) =
      validate_msgid_length example_config (bytes_tab_char ++ [0]) :=
  length_only_ignores_content example_config .msgid bytes_tab_char [] bytes_sdid_bad []
    (forall_mem_of_all _ _ (by decide)) (forall_mem_of_all _ _ (by decide)) (by decide)

/-- C14 on concrete inputs: `validate_element_name` on "SDID=bad" returns
false with length 8 and leaves the "identifier" error, from an empty channel,
from the channel it left itself and from a channel holding an unrelated length
error; `validate_hostname` on "example.com" returns true with length 11 and
leaves that unrelated error where it was. -/
theorem validators_idempotent_witness :
    (∃ (ret : Bool) (length : Nat) (raised : List Raise),
      FieldKind.run_validate example_config .element_name (bytes_sdid_bad ++ [0]) ⟨none⟩ =
        some (ret, length, ErrorChannel.after ⟨none⟩ raised) ∧
      FieldKind.run_validate example_config .element_name (bytes_sdid_bad ++ [0])
          (ErrorChannel.after ⟨none⟩ raised) =
        some (ret, length, ErrorChannel.after ⟨none⟩ raised) ∧
      FieldKind.run_validate example_config .element_name (bytes_sdid_bad ++ [0])
          ⟨some (length_exceeded example_config 300)⟩ =
        some (ret, length,
          ErrorChannel.after ⟨some (length_exceeded example_config 300)⟩ raised) ∧
      length = bytes_sdid_bad.length ∧
      (ret = true → raised = []) ∧
      (ret = false → ∃ e, raised = [e] ∧ ErrorChannel.after ⟨none⟩ raised = ⟨some e⟩ ∧
        ErrorChannel.after ⟨some (length_exceeded example_config 300)⟩ raised =
          ⟨some e⟩)) ∧
    run_validate_element_name example_config (bytes_sdid_bad ++ [0]) ⟨none⟩ =
      some (false, 8, ⟨some (Raise.invalid_encoding "invalid identifier format")⟩) ∧
    run_validate_element_name example_config (bytes_sdid_bad ++ [0])
        ⟨some (Raise.invalid_encoding "invalid identifier format")⟩ =
      some (false, 8, ⟨some (Raise.invalid_encoding "invalid identifier format")⟩) ∧
    run_validate_element_name example_config (bytes_sdid_bad ++ [0])
        ⟨some (length_exceeded example_config 300)⟩ =
      some (false, 8, ⟨some (Raise.invalid_encoding "invalid identifier format")⟩) ∧
    run_validate_hostname example_config (bytes_example_com ++ [0])
        ⟨some (length_exceeded example_config 300)⟩ =
      some (true, 11, ⟨some (length_exceeded example_config 300)⟩) :=
  ⟨validators_idempotent example_config .element_name bytes_sdid_bad []
      (forall_mem_of_all _ _ (by decide)) ⟨none⟩ ⟨some (length_exceeded example_config 300)⟩,
    by decide, by decide, by decide, by decide⟩

/-- C15 on a concrete input: over 11 bytes, "example.com" followed by its
terminator and "example.com" followed by a tab get the same results, and the
tab at index 11 causes no failure. -/
theorem scans_read_only_below_length_witness :
    (∀ j, j < 11 → (bytes_example_com ++ [0])[j]? = bytes_example_com_tab[j]?) ∧
    (validate_printable_ascii example_config (bytes_example_com ++ [0]) 11 =
        validate_printable_ascii example_config bytes_example_com_tab 11 ∧
      validate_name_chars example_config (bytes_example_com ++ [0]) 11 =
        validate_name_chars example_config bytes_example_com_tab 11) ∧
    validate_printable_ascii example_config bytes_example_com_tab 11 =
      some ⟨true, 11, []⟩ :=
  ⟨by decide,
    scans_read_only_below_length example_config (bytes_example_com ++ [0])
      bytes_example_com_tab 11 (by decide),
    by decide⟩

/-- C16 on a concrete input: the name scan of "SDID=bad" stops at the equals
sign at index 4 with exactly one error, and gives the same outcome when the
bytes after the equals sign are replaced by tabs and a byte 200, themselves
forbidden. -/
theorem scans_short_circuit_witness :
    ∃ r, validate_name_chars example_config (bytes_sdid_bad ++ [0]) 8 = some r ∧
      r.ret = false ∧ r.i = 4 ∧ r.raised.length = 1 ∧
      validate_name_chars example_config bytes_sdid_other 8 = some r := by
  obtain ⟨q, r, h1, h2, h3, _, _, _, _, h8, hrep⟩ :=
    (scans_short_circuit example_config (bytes_sdid_bad ++ [0]) 8).2
      ⟨4, 61, by decide, by decide, by decide⟩
  have he : validate_name_chars example_config (bytes_sdid_bad ++ [0]) 8 =
      some ⟨false, 4, [Raise.invalid_encoding "invalid identifier format"]⟩ := by decide
  have hq : q = 4 := by
    rw [he] at h1
    cases h1
    exact h3.symm
  subst hq
  exact ⟨r, h1, h2, h3, h8, hrep bytes_sdid_other (by decide)⟩

/-- C17 on concrete inputs: `validate_hostname` on "example.com" against
`Ok(11)`, and `validate_element_name` on "SDID=bad" against the "identifier"
error. -/
theorem validators_refine_spec_validate_witness :
    (spec_validate example_config .hostname bytes_example_com = .ok 11 ∧
      ∃ r, validate_hostname example_config (bytes_example_com ++ [0]) = some r ∧
        r.ret = true ∧ r.length = 11) ∧
    (spec_validate example_config .element_name bytes_sdid_bad =
        .error (Raise.invalid_encoding "invalid identifier format") ∧
      ∃ r, validate_element_name example_config (bytes_sdid_bad ++ [0]) = some r ∧
        r.ret = false ∧ r.raised = [Raise.invalid_encoding "invalid identifier format"]) := by
  have e1 : spec_validate example_config .hostname bytes_example_com = .ok 11 := by rfl
  have e2 : spec_validate example_config .element_name bytes_sdid_bad =
      .error (Raise.invalid_encoding "invalid identifier format") := by rfl
  obtain ⟨r1, h1, hok, _⟩ := validators_refine_spec_validate example_config .hostname
    bytes_example_com [] (forall_mem_of_all _ _ (by decide))
  obtain ⟨r2, h2, _, herr⟩ := validators_refine_spec_validate example_config .element_name
    bytes_sdid_bad [] (forall_mem_of_all _ _ (by decide))
  exact ⟨⟨e1, r1, h1, (hok 11).mpr e1⟩, ⟨e2, r2, h2, (herr _).mpr e2⟩⟩

/-- C18 on concrete inputs: the name scan accepts the 12 bytes of
"custom-param", so the printable scan does; with the element-name bound 32 not
above the hostname bound 255, `validate_hostname` accepts "custom-param", which
`validate_element_name` accepts. -/
theorem restricted_name_stricter_witness :
    validate_name_chars example_config (bytes_custom_param ++ [0]) 12 =
      some ⟨true, 12, []⟩ ∧
    validate_printable_ascii example_config (bytes_custom_param ++ [0]) 12 =
      some ⟨true, 12, []⟩ ∧
    validate_element_name example_config (bytes_custom_param ++ [0]) =
      some ⟨true, 12, []⟩ ∧
    validate_hostname example_config (bytes_custom_param ++ [0]) = some ⟨true, 12, []⟩ :=
  ⟨by decide,
    (restricted_name_stricter example_config).1 (bytes_custom_param ++ [0]) 12
      ⟨true, 12, []⟩ (by decide) rfl,
    by decide,
    (restricted_name_stricter example_config).2 .hostname bytes_custom_param []
      ⟨true, 12, []⟩ (forall_mem_of_all _ _ (by decide)) (Or.inr (Or.inl rfl)) (by decide)
      (by decide) rfl⟩

/-- C19 on a concrete input: byte 200 reads as 200 where `char` is unsigned
and as -56 where it is signed, fails the range test on both, and as the second
of three bytes makes the printable scan return false on both targets; byte 97
is accepted on both. -/
theorem scans_independent_of_char_signedness_witness :
    (char_value example_config_unsigned 200 = 200 ∧ char_value example_config 200 = -56) ∧
    ((char_value example_config 200 < 33 ∨ char_value example_config 200 > 126) ↔
      (char_value example_config_unsigned 200 < 33 ∨
        char_value example_config_unsigned 200 > 126)) ∧
    (∃ r, validate_printable_ascii example_config [97, 200, 0] 3 = some r ∧
      r.ret = false) ∧
    (∃ r, validate_printable_ascii example_config_unsigned [97, 200, 0] 3 = some r ∧
      r.ret = false) ∧
    validate_printable_ascii example_config [97] 1 = some ⟨true, 1, []⟩ ∧
    validate_printable_ascii example_config_unsigned [97] 1 = some ⟨true, 1, []⟩ := by
  have h := scans_independent_of_char_signedness example_config example_config_unsigned
    rfl rfl 200
  have h97 := scans_independent_of_char_signedness example_config example_config_unsigned
    rfl rfl 97
  refine ⟨h.1, h.2.1, ?_, ?_, ?_, ?_⟩
  · exact ((h.2.2 example_config (Or.inl rfl)).1 (by decide) [97, 200, 0] 3 1 (by decide)
      (by decide)).1
  · exact ((h.2.2 example_config_unsigned (Or.inr rfl)).1 (by decide) [97, 200, 0] 3 1
      (by decide) (by decide)).1
  · exact (h97.2.2 example_config (Or.inl rfl)).2.1.mpr (by decide)
  · exact (h97.2.2 example_config_unsigned (Or.inr rfl)).2.1.mpr (by decide)

end Stumpless
